import Mathlib

/-!
# olaris-server: transcoding sessions, representation resolver, DASH manifest

Shallow embedding of `ffmpeg/ffmpeg.go`, `ffmpeg/session.go`,
`dash/manifest.go` and `metadata/parsers/series.go`.

Conventions of the embedding:
* Go `int`/`int64` values are `Int`; arithmetic that can overflow is wrapped
  with `wrapInt64`.
* A Go result pair `(T, error)` is a Lean pair `T × Option GoError`
  (`none` is the `nil` error).
* Functions, tables and types of the `ffmpeg` package that live outside the
  embedded files are fields of `Collaborators`.
-/

namespace Olaris

/-! ## Data model (ffmpeg.go) -/

/-- Argument of a `fmt.Errorf` call, kept unrendered. -/
inductive FmtArg where
  | str (s : String)
  | int (n : Int)
  | duration (d : Int)
deriving DecidableEq

/-- Go `error` values, by the call that builds them. -/
inductive GoError where
  | New (msg : String)
  | Errorf (format : String) (args : List FmtArg)
deriving DecidableEq

/-- Modelled from the spec: `Stream` is declared outside the embedded files;
"a source media stream — id, type (video/audio/subtitle), native codec,
source file reference".  The field names are the ones ffmpeg.go reads. -/
structure Stream where
  StreamId : Int
  StreamType : String
  Codecs : String
  MediaFileURL : String
deriving DecidableEq

/-- Modelled from the spec: `Segment` is declared outside the embedded files;
"an id, a start offset, and a duration".  `SegmentId` is the field ffmpeg.go
reads. -/
structure Segment where
  SegmentId : Int
  StartOffset : Int
  Duration : Int
deriving DecidableEq

/-- `Representation` (ffmpeg.go:13-28); `EP` stands for `EncoderParams`, whose
declaration is outside the embedded files. -/
structure Representation (EP : Type) where
  RepresentationId : String
  BitRate : Int
  Container : String
  Codecs : String
  transcoded : Bool
  transmuxed : Bool
  encoderParams : EP
deriving DecidableEq

/-- `StreamRepresentation` (ffmpeg.go:30-35). -/
structure StreamRepresentation (EP : Type) where
  Stream : Stream
  Representation : Representation EP
  SegmentStartTimestamps : List (List Segment)
deriving DecidableEq

/-- `ClientCodecCapabilities` (ffmpeg.go:75-77). -/
structure ClientCodecCapabilities where
  PlayableCodecs : List String
deriving DecidableEq

/-- `const segmentsPerSession = 12` (ffmpeg.go:46). -/
def segmentsPerSession : Int := 12

/-- Two's-complement wrap-around of an `int64` result. -/
def wrapInt64 (x : Int) : Int := (x + 2 ^ 63) % 2 ^ 64 - 2 ^ 63

/-- The zero value `Stream{}`. -/
def Stream.zero : Stream := ⟨0, "", "", ""⟩

/-- The zero value `Representation{}`; `default` is the zero `EncoderParams`. -/
def Representation.zero (EP : Type) [Inhabited EP] : Representation EP :=
  ⟨"", 0, "", "", false, false, default⟩

/-- The zero value `StreamRepresentation{}`. -/
def StreamRepresentation.zero (EP : Type) [Inhabited EP] : StreamRepresentation EP :=
  ⟨Stream.zero, Representation.zero EP, []⟩

/-- `TranscodingSession` (session.go:15-20); the process handle `cmd` plays no
part in the functions embedded here and is left out. -/
structure TranscodingSession (EP : Type) where
  Stream : StreamRepresentation EP
  outputDir : String
  firstSegmentId : Int
deriving DecidableEq

/-! ## session.go -/

/-- `IsProjectedAvailable` (session.go:67-73). -/
def IsProjectedAvailable {EP : Type} (s : TranscodingSession EP) (segmentId : Int)
    (_deadline : Int) : Bool :=
  if s.Stream.Representation.RepresentationId = "webvtt" then
    true
  else
    decide (s.firstSegmentId ≤ segmentId) &&
      decide (segmentId < wrapInt64 (s.firstSegmentId + segmentsPerSession))

/-- A subtitle session: representation id `webvtt`, window starting at 0. -/
def webvttSession : TranscodingSession Nat :=
  { Stream := { Stream := ⟨2, "subtitle", "webvtt", "/media/a.mkv"⟩
                Representation := ⟨"webvtt", 0, "text/vtt", "webvtt", false, false, 0⟩
                SegmentStartTimestamps := [] }
    outputDir := "/tmp/s"
    firstSegmentId := 0 }

/-! ## session.go: AvailableSegments and GetSegment

A file name is a `String` (a sequence of code points); the bytes of the Go
string are its UTF-8 encoding.  `regexp` matches code points, the slice
expression and `strconv.Atoi` work on bytes. -/

/-- UTF-8 encoding of one code point. -/
def utf8Bytes (c : Char) : List Nat :=
  let v := c.toNat
  if v < 0x80 then [v]
  else if v < 0x800 then [0xC0 + v / 0x40, 0x80 + v % 0x40]
  else if v < 0x10000 then [0xE0 + v / 0x1000, 0x80 + v / 0x40 % 0x40, 0x80 + v % 0x40]
  else [0xF0 + v / 0x40000, 0x80 + v / 0x1000 % 0x40, 0x80 + v / 0x40 % 0x40, 0x80 + v % 0x40]

/-- The bytes of a Go string. -/
def goBytes : List Char → List Nat
  | [] => []
  | c :: cs => utf8Bytes c ++ goBytes cs

/-- The Go slice expression `b[lo:hi]` on bytes. -/
def sliceBytes (b : List Nat) (lo hi : Nat) : List Nat := (b.take hi).drop lo

/-- The class `\d` of Go's regexp: the ASCII digits. -/
def isDigit (c : Char) : Bool := decide (48 ≤ c.toNat ∧ c.toNat ≤ 57)

/-- Match of a literal at the start of the input; the rest of the input. -/
def dropLiteral : List Char → List Char → Option (List Char)
  | [], cs => some cs
  | _ :: _, [] => none
  | p :: ps, c :: cs => if p = c then dropLiteral ps cs else none

/-- The part `\d+.m4s` of the pattern on `rest`, trying `k` digits first and
fewer after that (greedy `+` with backtracking); `.` is any code point but a
newline.  Returns the matched text. -/
def matchTail (rest : List Char) : Nat → Option (List Char)
  | 0 => none
  | k + 1 =>
    match rest.drop (k + 1) with
    | [] => matchTail rest k
    | c :: tl =>
      if c ≠ Char.ofNat 10 ∧ (dropLiteral ['m', '4', 's'] tl).isSome then
        some (rest.take (k + 1) ++ [c, 'm', '4', 's'])
      else matchTail rest k

/-- The pattern `stream0_(?P<number>\d+).m4s` anchored at the start of the
input: the preferred match, if any. -/
def matchHere (cs : List Char) : Option (List Char) :=
  match dropLiteral ['s', 't', 'r', 'e', 'a', 'm', '0', '_'] cs with
  | none => none
  | some rest =>
    match matchTail rest (rest.takeWhile isDigit).length with
    | none => none
    | some m => some (['s', 't', 'r', 'e', 'a', 'm', '0', '_'] ++ m)

/-- `r.FindString(name)` for `r = regexp.MustCompile("stream0_(?P<number>\\d+).m4s")`
(session.go:83,86): the leftmost match, empty when there is none. -/
def FindString : List Char → List Char
  | [] => []
  | c :: cs =>
    match matchHere (c :: cs) with
    | some m => m
    | none => FindString cs

/-- `strconv.ErrSyntax`. -/
def ErrSyntax : GoError := GoError.New "invalid syntax"

/-- `strconv.ErrRange`. -/
def ErrRange : GoError := GoError.New "value out of range"

/-- The loop of `strconv.ParseUint(s, 10, 64)`. -/
def ParseUintLoop : List Nat → Nat → Nat × Option GoError
  | [], n => (n, none)
  | c :: rest, n =>
    if 48 ≤ c ∧ c ≤ 57 then
      if n ≥ (2 ^ 64 - 1) / 10 + 1 then (2 ^ 64 - 1, some ErrRange)
      else
        let n1 := (n * 10 + (c - 48)) % 2 ^ 64
        if n1 < n * 10 ∨ n1 > 2 ^ 64 - 1 then (2 ^ 64 - 1, some ErrRange)
        else ParseUintLoop rest n1
    else (0, some ErrSyntax)

/-- `strconv.ParseUint(s, 10, 64)`. -/
def ParseUint (s : List Nat) : Nat × Option GoError :=
  if s = [] then (0, some ErrSyntax) else ParseUintLoop s 0

/-- `strconv.ParseInt(s, 10, 0)` with a 64-bit `int`. -/
def ParseInt (s : List Nat) : Int × Option GoError :=
  match s with
  | [] => (0, some ErrSyntax)
  | c0 :: tl =>
    let neg : Bool := decide (c0 = 45)
    let s1 := if c0 = 43 ∨ c0 = 45 then tl else s
    match ParseUint s1 with
    | (un, err) =>
      if err ≠ none ∧ err ≠ some ErrRange then (0, err)
      else if neg = false ∧ un ≥ 2 ^ 63 then (2 ^ 63 - 1, some ErrRange)
      else if neg = true ∧ un > 2 ^ 63 then (-2 ^ 63, some ErrRange)
      else (if neg then -(un : Int) else (un : Int), none)

/-- The digit loop of the fast path of `strconv.Atoi`; `none` is the syntax
error.  `ch -= '0'` wraps in a byte. -/
def AtoiFastLoop : List Nat → Int → Option Int
  | [], n => some n
  | ch :: rest, n =>
    let ch1 := (ch + 256 - 48) % 256
    if ch1 > 9 then none else AtoiFastLoop rest (n * 10 + ch1)

/-- `strconv.Atoi` with a 64-bit `int`. -/
def Atoi (s : List Nat) : Int × Option GoError :=
  if 0 < s.length ∧ s.length < 19 then
    let s1 := match s with
      | [] => s
      | c0 :: tl => if c0 = 45 ∨ c0 = 43 then tl else s
    if s1.length < 1 then (0, some ErrSyntax)
    else
      match AtoiFastLoop s1 0 with
      | none => (0, some ErrSyntax)
      | some n => (if s.head? = some 45 then -n else n, none)
  else ParseInt s

/-- The key computed from a match (session.go:88):
`strconv.Atoi(match[len("segment_") : len(match)-len(".m4s")])`, error dropped. -/
def segmentFsNumber (m : List Char) : Int :=
  (Atoi (sliceBytes (goBytes m) 8 ((goBytes m).length - 4))).1

/-- The loop of `AvailableSegments` (session.go:85-92) over the listed names;
a Go map is its lookup function. -/
def availableLoop (Join : String → String → String) (outputDir : String) :
    List String → (Int → Option String) → (Int → Option String)
  | [], res => res
  | f :: files, res =>
    let m := FindString f.toList
    if m ≠ [] then
      availableLoop Join outputDir files
        (fun k => if k = segmentFsNumber m then some (Join outputDir f) else res k)
    else availableLoop Join outputDir files res

/-- `AvailableSegments` (session.go:75-95); `readDir` is the result of
`ioutil.ReadDir(s.outputDir)` (the names of the listed files and the error),
`Join` is `filepath.Join`; the nil map is `none`. -/
def AvailableSegments {EP : Type} (Join : String → String → String)
    (s : TranscodingSession EP) (readDir : List String × Option GoError) :
    Option (Int → Option String) × Option GoError :=
  match readDir.2 with
  | some err => (none, some err)
  | none => (some (availableLoop Join s.outputDir readDir.1 (fun _ => none)), none)

/-- Lookup `m[k]` in a possibly nil Go map. -/
def mapLookup (m : Option (Int → Option String)) (k : Int) : Option String :=
  match m with
  | none => none
  | some f => f k

/-- What a call of `GetSegment` returned and did: the number of directory
listings and of `time.Sleep(500 * time.Millisecond)` calls it made. -/
structure GetSegmentResult where
  path : String
  err : Option GoError
  listings : Nat
  sleeps : Nat
deriving DecidableEq

/-- The `for` loop of `GetSegment` (session.go:57-64): `fs k` is what the
listing number `k` observes, `k` the number of iterations already made;
`none` when the loop has not returned after `fuel` iterations. -/
def GetSegmentLoop {EP : Type} (Join : String → String → String)
    (s : TranscodingSession EP) (segmentId : Int)
    (fs : Nat → List String × Option GoError) : Nat → Nat → Option GetSegmentResult
  | 0, _ => none
  | fuel + 1, k =>
    let availableSegments := (AvailableSegments Join s (fs k)).1
    match mapLookup availableSegments segmentId with
    | some path => some ⟨path, none, k + 1, k⟩
    | none => GetSegmentLoop Join s segmentId fs fuel (k + 1)

/-- `GetSegment` (session.go:51-65). -/
def GetSegment {EP : Type} (Join : String → String → String)
    (s : TranscodingSession EP) (segmentId : Int) (deadline : Int)
    (fs : Nat → List String × Option GoError) (fuel : Nat) : Option GetSegmentResult :=
  if IsProjectedAvailable s segmentId deadline = false then
    some ⟨"", some (GoError.Errorf "Segment not projected to be available within deadline %s"
      [FmtArg.duration deadline]), 0, 0⟩
  else GetSegmentLoop Join s segmentId fs fuel 0

/-- A transmuxing session whose window starts at segment 0. -/
def directSession : TranscodingSession Nat :=
  { Stream := { Stream := ⟨0, "video", "avc1.64001f", "/media/a.mkv"⟩
                Representation := ⟨"direct", 0, "video/mp4", "avc1.64001f", false, true, 0⟩
                SegmentStartTimestamps := [] }
    outputDir := "/tmp/s"
    firstSegmentId := 0 }

/-- A stand-in for `filepath.Join` on two clean path elements. -/
def joinPath (dir name : String) : String := dir ++ "/" ++ name

/-! ## ffmpeg.go: representation resolver -/

/-- Functions and tables of the `ffmpeg` package that ffmpeg.go calls and that
are declared outside the embedded files.  A Go map is its lookup function. -/
structure Collaborators (EP : Type) where
  GetTransmuxedRepresentation : Stream → StreamRepresentation EP × Option GoError
  GetSubtitleStreamRepresentation : Stream → StreamRepresentation EP
  GetSimilarEncoderParams : Stream → EP × Option GoError
  GetTranscodedAudioRepresentation : Stream → String → EP → StreamRepresentation EP
  GetTranscodedVideoRepresentation : Stream → String → EP → StreamRepresentation EP
  EncoderParamsToString : EP → String
  EncoderParamsFromString : String → EP × Option GoError
  VideoEncoderPresets : String → Option EP
  AudioEncoderPresets : String → Option EP

/-- The loop `for _, playableCodec := range PlayableCodecs` with its
`if playableCodec == codec` test (ffmpeg.go:88-92 and 124-128): whether some
iteration takes the early return. -/
def codecLoopHits (codec : String) : List String → Bool
  | [] => false
  | playableCodec :: rest =>
    if playableCodec = codec then true else codecLoopHits codec rest

/-- The loop `for _, r := range representations` (ffmpeg.go:123-129): the
representation returned by the first early return, if any. -/
def firstPlayable {EP : Type} (playableCodecs : List String) :
    List (StreamRepresentation EP) → Option (StreamRepresentation EP)
  | [] => none
  | r :: rest =>
    if codecLoopHits r.Representation.Codecs playableCodecs then some r
    else firstPlayable playableCodecs rest

/-- `strings.HasPrefix` for an ASCII prefix. -/
def HasPrefix (s pre : String) : Bool := pre.toList.isPrefixOf s.toList

/-- The Go slice expression `s[n:]` when the first `n` bytes of `s` are ASCII. -/
def sliceFrom (s : String) (n : Nat) : String := String.mk (s.toList.drop n)

/-- `StreamRepresentationFromRepresentationId` (ffmpeg.go:134-174). -/
def StreamRepresentationFromRepresentationId {EP : Type} [Inhabited EP]
    (env : Collaborators EP) (s : Stream) (representationId : String) :
    StreamRepresentation EP × Option GoError :=
  let notFound : StreamRepresentation EP × Option GoError :=
    (StreamRepresentation.zero EP,
      some (GoError.Errorf "No such stream %d/%s found for file %s"
        [FmtArg.int s.StreamId, FmtArg.str representationId, FmtArg.str s.MediaFileURL]))
  if s.StreamType = "subtitle" then
    (env.GetSubtitleStreamRepresentation s, none)
  else if representationId = "direct" then
    match env.GetTransmuxedRepresentation s with
    | (_, some err) => (StreamRepresentation.zero EP, some err)
    | (transmuxedStream, none) =>
      if transmuxedStream.Representation.RepresentationId = representationId then
        (transmuxedStream, none)
      else notFound
  else if HasPrefix representationId "preset:" then
    let presetId := sliceFrom representationId 7
    match env.VideoEncoderPresets presetId with
    | some encoderParams =>
      (env.GetTranscodedVideoRepresentation s representationId encoderParams, none)
    | none =>
      match env.AudioEncoderPresets presetId with
      | some encoderParams =>
        (env.GetTranscodedAudioRepresentation s representationId encoderParams, none)
      | none => notFound
  else if HasPrefix representationId "transcode:" then
    let encoderParamsStr := sliceFrom representationId 10
    match env.EncoderParamsFromString encoderParamsStr with
    | (_, some err) => (StreamRepresentation.zero EP, some err)
    | (encoderParams, none) =>
      if s.StreamType = "video" then
        (env.GetTranscodedVideoRepresentation s representationId encoderParams, none)
      else if s.StreamType = "audio" then
        (env.GetTranscodedAudioRepresentation s representationId encoderParams, none)
      else notFound
  else notFound

/-- The slice `representations` built in ffmpeg.go:93-122. -/
def candidateRepresentations {EP : Type} [Inhabited EP] (env : Collaborators EP)
    (stream : Stream) : List (StreamRepresentation EP) :=
  let representations : List (StreamRepresentation EP) := []
  let similarEncoderParams := (env.GetSimilarEncoderParams stream).1
  let representations :=
    if stream.StreamType = "audio" then
      representations ++
        [env.GetTranscodedAudioRepresentation stream
            ("transcode:" ++ env.EncoderParamsToString similarEncoderParams)
            similarEncoderParams] ++
        [(StreamRepresentationFromRepresentationId env stream "preset:128k-audio").1]
    else representations
  let representations :=
    if stream.StreamType = "video" then
      representations ++
        [env.GetTranscodedVideoRepresentation stream
            ("transcode:" ++ env.EncoderParamsToString similarEncoderParams)
            similarEncoderParams] ++
        [(StreamRepresentationFromRepresentationId env stream "preset:720-5000k-video").1]
    else representations
  representations

/-- `GetTransmuxedOrTranscodedRepresentation` (ffmpeg.go:79-132). -/
def GetTransmuxedOrTranscodedRepresentation {EP : Type} [Inhabited EP]
    (env : Collaborators EP) (stream : Stream) (capabilities : ClientCodecCapabilities) :
    StreamRepresentation EP × Option GoError :=
  if capabilities.PlayableCodecs.length = 0 then
    env.GetTransmuxedRepresentation stream
  else if codecLoopHits stream.Codecs capabilities.PlayableCodecs then
    env.GetTransmuxedRepresentation stream
  else
    match firstPlayable capabilities.PlayableCodecs (candidateRepresentations env stream) with
    | some r => (r, none)
    | none =>
      (StreamRepresentation.zero EP,
        some (GoError.Errorf "Could not find appropriate representation for stream %s"
          [FmtArg.str stream.StreamType]))

/-! ## ffmpeg.go: NewTranscodingSession -/

/-- Result of a Go call that may panic. -/
inductive Outcome (α : Type) where
  | ok (a : α)
  | panic
deriving DecidableEq

/-- Session constructors of the `ffmpeg` package declared outside the embedded
files, and `os.TempDir()`.  A `*TranscodingSession` is an `Option`. -/
structure SessionCollaborators (EP : Type) where
  TempDir : String
  NewTransmuxingSession : StreamRepresentation EP → List Segment → String →
    Option (TranscodingSession EP) × Option GoError
  NewVideoTranscodingSession : StreamRepresentation EP → List Segment → String →
    Option (TranscodingSession EP) × Option GoError
  NewAudioTranscodingSession : StreamRepresentation EP → List Segment → String →
    Option (TranscodingSession EP) × Option GoError
  NewSubtitleSession : StreamRepresentation EP → List Segment → String →
    Option (TranscodingSession EP) × Option GoError

/-- The loop of ffmpeg.go:179-184: the value of `segments` after the loop
(`none` is the nil slice); indexing an empty window panics. -/
def findSegments (segmentId : Int) : List (List Segment) → Outcome (Option (List Segment))
  | [] => Outcome.ok none
  | s :: rest =>
    match s.head?, s.getLast? with
    | some first, some last =>
      if first.SegmentId ≤ segmentId ∧ segmentId ≤ last.SegmentId then Outcome.ok (some s)
      else findSegments segmentId rest
    | _, _ => Outcome.panic

/-- The part of `NewTranscodingSession` after the nil check (ffmpeg.go:189-212). -/
def buildSession {EP : Type} (env : SessionCollaborators EP) (s : StreamRepresentation EP)
    (segments : List Segment) : Option (TranscodingSession EP) × Option GoError :=
  if s.Representation.RepresentationId = "direct" then
    match env.NewTransmuxingSession s segments env.TempDir with
    | (_, some err) => (none, some err)
    | (session, none) => (session, none)
  else if s.Stream.StreamType = "video" then
    ((env.NewVideoTranscodingSession s segments env.TempDir).1, none)
  else if s.Stream.StreamType = "audio" then
    ((env.NewAudioTranscodingSession s segments env.TempDir).1, none)
  else
    let (session, err) : Option (TranscodingSession EP) × Option GoError :=
      if s.Stream.StreamType = "subtitle" then env.NewSubtitleSession s segments env.TempDir
      else (none, none)
    match err with
    | some e => (none, some e)
    | none => (session, none)

/-- `NewTranscodingSession` (ffmpeg.go:176-213). -/
def NewTranscodingSession {EP : Type} (env : SessionCollaborators EP)
    (s : StreamRepresentation EP) (segmentId : Int) :
    Outcome (Option (TranscodingSession EP) × Option GoError) :=
  match findSegments segmentId s.SegmentStartTimestamps with
  | Outcome.panic => Outcome.panic
  | Outcome.ok none =>
    Outcome.ok (none, some (GoError.New "Segment ID not found in StreamRepresentation"))
  | Outcome.ok (some segments) => Outcome.ok (buildSession env s segments)

/-! ## dash/manifest.go: duration attribute -/

/-- `time.Millisecond`, in nanoseconds. -/
def Millisecond : Int := 1000000

/-- `time.Second`. -/
def Second : Int := 1000 * Millisecond

/-- `time.Minute`. -/
def Minute : Int := 60 * Second

/-- `time.Hour`. -/
def Hour : Int := 60 * Minute

/-- The verb `%d` of `fmt.Sprintf` applied to an integer. -/
def fmtD (n : Int) : String :=
  if n < 0 then "-" ++ Nat.repr n.natAbs else Nat.repr n.toNat

/-- The `durationXml` of `BuildTransmuxingManifestFromFile` (manifest.go:94-98),
from `totalDuration`; Go's `/` and `%` truncate towards zero. -/
def BuildTransmuxingManifestFromFile_durationXml (totalDuration : Int) : String :=
  "PT" ++ fmtD (totalDuration.tdiv Hour) ++ "H" ++
    fmtD ((totalDuration.tmod Hour).tdiv Minute) ++ "M" ++
    fmtD ((totalDuration.tmod Minute).tdiv Second) ++ "." ++
    fmtD ((totalDuration.tmod Second).tdiv Millisecond) ++ "S"

/-- The `durationXml` of `BuildTranscodingManifestFromFile` (manifest.go:129-133). -/
def BuildTranscodingManifestFromFile_durationXml (totalDuration : Int) : String :=
  "PT" ++ fmtD (totalDuration.tdiv Hour) ++ "H" ++
    fmtD ((totalDuration.tmod Hour).tdiv Minute) ++ "M" ++
    fmtD ((totalDuration.tmod Minute).tdiv Second) ++ "." ++
    fmtD ((totalDuration.tmod Second).tdiv Millisecond) ++ "S"

/-! ## metadata/parsers/series.go

The three patterns are matched on the code points of the file name with the
leftmost-first preference of Go's `regexp`: a greedy operator tries the longer
alternative first and gives characters back only when the rest fails. -/

/-- `ParsedSeriesInfo` (series.go:16-21). -/
structure ParsedSeriesInfo where
  Year : Nat
  Title : String
  EpisodeNum : Int
  SeasonNum : Int
deriving DecidableEq

/-- The group `(\d{1,2})` at the start of the input: the ways to match it, the
preferred one (two digits) first, each with the rest of the input. -/
def digits12 : List Char → List (List Char × List Char)
  | [] => []
  | [a] => if isDigit a then [([a], [])] else []
  | a :: b :: rest =>
    if isDigit a then
      if isDigit b then [([a, b], rest), ([a], b :: rest)] else [([a], b :: rest)]
    else []

/-- The rest of a pattern after its second group: the separator `sep` and the
group `(\d{1,2})`, tried on each way of matching the second group in order.
Returns the groups 2 and 3. -/
def seasonEpisodeTail (sep : Char) :
    List (List Char × List Char) → Option (List Char × List Char)
  | [] => none
  | (g2, rest) :: others =>
    match rest with
    | [] => seasonEpisodeTail sep others
    | c :: rest2 =>
      if c = sep then
        match digits12 rest2 with
        | (g3, _) :: _ => some (g2, g3)
        | [] => seasonEpisodeTail sep others
      else seasonEpisodeTail sep others

/-- The part `S(\d{1,2})E(\d{1,2})` of `seriesRegex` at the start of the input. -/
def seriesTail (cs : List Char) : Option (List Char × List Char) :=
  match cs with
  | 'S' :: rest => seasonEpisodeTail 'E' (digits12 rest)
  | _ => none

/-- The part `(\d{1,2})x(\d{1,2})` of `seriesFallbackRegex` at the start of the
input. -/
def fallbackTail (cs : List Char) : Option (List Char × List Char) :=
  seasonEpisodeTail 'x' (digits12 cs)

/-- The pattern `^(.*)` followed by `tail`: the greedy `.*` (any code point but
a newline) keeps the longest prefix after which `tail` matches.  Returns the
groups 1, 2 and 3. -/
def greedyPrefix (tail : List Char → Option (List Char × List Char)) :
    List Char → Option (List Char × List Char × List Char)
  | [] => (tail []).map (fun g => ([], g.1, g.2))
  | c :: rest =>
    if c ≠ Char.ofNat 10 then
      match greedyPrefix tail rest with
      | some (title, g2, g3) => some (c :: title, g2, g3)
      | none => (tail (c :: rest)).map (fun g => ([], g.1, g.2))
    else (tail (c :: rest)).map (fun g => ([], g.1, g.2))

/-- `seriesRegex.FindStringSubmatch` for `^(.*)S(\d{1,2})E(\d{1,2})`
(series.go:12): the groups 1 to 3, `none` for the nil slice. -/
def seriesRegexFind (cs : List Char) : Option (List Char × List Char × List Char) :=
  greedyPrefix seriesTail cs

/-- `seriesFallbackRegex.FindStringSubmatch` for `^(.*)(\d{1,2})x(\d{1,2})`
(series.go:13): the groups 1 to 3, `none` for the nil slice. -/
def seriesFallbackRegexFind (cs : List Char) : Option (List Char × List Char × List Char) :=
  greedyPrefix fallbackTail cs

/-- The part `(?:19[0-9]|20[01])[0-9]` of `yearRegex` at the start of the
input: the four digits and the rest. -/
def yearDigits : List Char → Option (List Char × List Char)
  | a :: b :: c :: d :: rest =>
    if ((a = '1' ∧ b = '9' ∧ isDigit c = true) ∨ (a = '2' ∧ b = '0' ∧ (c = '0' ∨ c = '1'))) ∧
        isDigit d = true then some ([a, b, c, d], rest)
    else none
  | _ => none

/-- The optional closing bracket `[\]\)]?` at the start of the input. -/
def closingBracket : List Char → List Char
  | c :: _ => if c = ']' ∨ c = ')' then [c] else []
  | [] => []

/-- The pattern of `yearRegex` anchored at the start of the input: the groups
1 and 2.  The opening bracket `[\[\(]?` is taken when the year follows it. -/
def yearMatchHere (cs : List Char) : Option (List Char × List Char) :=
  let bracketed : Option (List Char × List Char) :=
    match cs with
    | o :: rest =>
      if o = '[' ∨ o = '(' then
        match yearDigits rest with
        | some (y, r) => some (o :: y ++ closingBracket r, y)
        | none => none
      else none
    | [] => none
  match bracketed with
  | some g => some g
  | none =>
    match yearDigits cs with
    | some (y, r) => some (y ++ closingBracket r, y)
    | none => none

/-- `yearRegex.FindStringSubmatch` (series.go:11): the groups 1 and 2 of the
leftmost match, `none` for the nil slice. -/
def yearRegexFind : List Char → Option (List Char × List Char)
  | [] => none
  | c :: cs =>
    match yearMatchHere (c :: cs) with
    | some g => some g
    | none => yearRegexFind cs

/-- Removal of every non-overlapping occurrence of `old`, left to right;
`skip` counts the characters of a found occurrence still to drop. -/
def removeAll (old : List Char) : List Char → Nat → List Char
  | [], _ => []
  | _ :: cs, skip + 1 => removeAll old cs skip
  | c :: cs, 0 =>
    if old.isPrefixOf (c :: cs) then removeAll old cs (old.length - 1)
    else c :: removeAll old cs 0

/-- `strings.Replace(s, old, "", -1)`; an empty `old` leaves `s` unchanged. -/
def stringsReplaceWithEmpty (s old : List Char) : List Char :=
  if old = [] then s else removeAll old s 0

/-- The loop of `strconv.ParseUint(s, 10, bitSize)` for `maxVal = 2^bitSize - 1`. -/
def ParseUintLoopBits (maxVal : Nat) : List Nat → Nat → Nat × Option GoError
  | [], n => (n, none)
  | c :: rest, n =>
    if 48 ≤ c ∧ c ≤ 57 then
      if n ≥ (2 ^ 64 - 1) / 10 + 1 then (maxVal, some ErrRange)
      else
        let n1 := (n * 10 + (c - 48)) % 2 ^ 64
        if n1 < n * 10 ∨ n1 > maxVal then (maxVal, some ErrRange)
        else ParseUintLoopBits maxVal rest n1
    else (0, some ErrSyntax)

/-- `strconv.ParseUint(s, 10, 32)`. -/
def ParseUint32 (s : List Nat) : Nat × Option GoError :=
  if s = [] then (0, some ErrSyntax) else ParseUintLoopBits (2 ^ 32 - 1) s 0

/-- `ParseSerieName` (series.go:28-70); `Sanitize` is `helpers.Sanitize`,
declared outside the embedded files; logging is left out. -/
def ParseSerieName (Sanitize : String → String) (fileName : String) : ParsedSeriesInfo :=
  let yearResult := yearRegexFind fileName.toList
  let (fileName1, year) : List Char × Nat :=
    match yearResult with
    | some (g1, yearString) =>
      (stringsReplaceWithEmpty fileName.toList g1, (ParseUint32 (goBytes yearString)).1)
    | none => (fileName.toList, 0)
  let res :=
    match seriesRegexFind fileName1 with
    | some g => some g
    | none => seriesFallbackRegexFind fileName1
  match res with
  | some (g1, g2, g3) =>
    { Year := year
      Title := Sanitize (String.mk g1)
      EpisodeNum := (Atoi (goBytes g3)).1
      SeasonNum := (Atoi (goBytes g2)).1 }
  | none =>
    { Year := year
      Title := Sanitize (String.mk fileName1)
      EpisodeNum := 0
      SeasonNum := 0 }

/-! ## Concrete collaborators used to evaluate the code -/

/-- Value of a string of decimal digits, `none` when the string is empty or
holds another character. -/
def parseDecimal (cs : List Char) : Option Nat :=
  if cs = [] then none
  else cs.foldl (fun acc c =>
    match acc with
    | none => none
    | some n => if c.isDigit then some (n * 10 + (c.toNat - 48)) else none) (some 0)

/-- Modelled from the spec: the collaborators of the resolver, with encoder
parameters reduced to one number (a bitrate).  The transmux representation has
id `direct` and the stream's own codec; a transcode representation carries the
id it is given, is flagged transcoded and keeps its parameters; the subtitle
passthrough representation has the id `webvtt` that session.go:68 tests for;
the preset tables hold the two fallbacks the resolver names. -/
def specCollaborators : Collaborators Nat where
  GetTransmuxedRepresentation := fun s =>
    (⟨s, ⟨"direct", 0, s.StreamType ++ "/mp4", s.Codecs, false, true, 0⟩, []⟩, none)
  GetSubtitleStreamRepresentation := fun s =>
    ⟨s, ⟨"webvtt", 0, "text/vtt", "webvtt", false, false, 0⟩, []⟩
  GetSimilarEncoderParams := fun _ => (1000, none)
  GetTranscodedAudioRepresentation := fun s id p =>
    ⟨s, ⟨id, p, "audio/mp4", "mp4a.40.2", true, false, p⟩, []⟩
  GetTranscodedVideoRepresentation := fun s id p =>
    ⟨s, ⟨id, p, "video/mp4", "avc1.64001f", true, false, p⟩, []⟩
  EncoderParamsToString := fun p => Nat.repr p
  EncoderParamsFromString := fun str =>
    match parseDecimal str.toList with
    | some p => (p, none)
    | none => (0, some (GoError.New "invalid encoder params"))
  VideoEncoderPresets := fun n => if n = "720-5000k-video" then some 5000 else none
  AudioEncoderPresets := fun n => if n = "128k-audio" then some 128 else none

/-- A video stream in H.265. -/
def videoStream : Stream := ⟨0, "video", "hev1.1.6.L93.B0", "/media/a.mkv"⟩

/-- An audio stream in AC-3. -/
def audioStream : Stream := ⟨1, "audio", "ac-3", "/media/a.mkv"⟩

/-- A subtitle stream. -/
def subtitleStream : Stream := ⟨2, "subtitle", "subrip", "/media/a.mkv"⟩

/-- The test of ffmpeg.go:180 on a window:
`w[0].SegmentId <= segmentId && segmentId <= w[len(w)-1].SegmentId`
(false on an empty window). -/
def windowContains (segmentId : Int) (w : List Segment) : Bool :=
  match w.head?, w.getLast? with
  | some first, some last => decide (first.SegmentId ≤ segmentId ∧ segmentId ≤ last.SegmentId)
  | _, _ => false

/-- Session constructors that start a session at the first segment of the
window in a directory under the temporary directory and never fail. -/
def specSessionCollaborators : SessionCollaborators Nat where
  TempDir := "/tmp"
  NewTransmuxingSession := fun sr segments dir =>
    (some ⟨sr, dir ++ "/transmux", (segments.head?.map (fun g => g.SegmentId)).getD 0⟩, none)
  NewVideoTranscodingSession := fun sr segments dir =>
    (some ⟨sr, dir ++ "/video", (segments.head?.map (fun g => g.SegmentId)).getD 0⟩, none)
  NewAudioTranscodingSession := fun sr segments dir =>
    (some ⟨sr, dir ++ "/audio", (segments.head?.map (fun g => g.SegmentId)).getD 0⟩, none)
  NewSubtitleSession := fun sr segments dir =>
    (some ⟨sr, dir ++ "/subtitle", (segments.head?.map (fun g => g.SegmentId)).getD 0⟩, none)

/-- A transmux representation with the two windows [0, 1] and [2]. -/
def twoWindows : StreamRepresentation Nat :=
  { Stream := ⟨0, "video", "avc1.64001f", "/media/a.mkv"⟩
    Representation := ⟨"direct", 0, "video/mp4", "avc1.64001f", false, true, 0⟩
    SegmentStartTimestamps := [[⟨0, 0, 5000⟩, ⟨1, 5000, 5000⟩], [⟨2, 10000, 2500⟩]] }

/-- Decimal value of a string of digits, continuing from `acc`. -/
def digitsValueFrom (acc : Nat) (ds : List Char) : Nat :=
  ds.foldl (fun a c => a * 10 + (c.toNat - 48)) acc

/-- Decimal value of a string of digits. -/
def digitsValue (ds : List Char) : Nat := digitsValueFrom 0 ds

/-- A listed file name `f` yields the key `k`: the pattern matches in it and
the number computed from the match is `k`. -/
def yieldsKey (f : String) (k : Int) : Prop :=
  FindString f.toList ≠ [] ∧ segmentFsNumber (FindString f.toList) = k

/-! ## Reading a rendered duration back -/

/-- The reading of a duration string `PT<h>H<m>M<s>.<f>S` as an ISO-8601
duration, in nanoseconds: `h` hours, `m` minutes, `s` seconds, and the digits
`f` after the point as the decimal fraction of a second; `none` when the
string has another form. -/
def readIsoDuration (cs : List Char) : Option Nat :=
  match dropLiteral ['P', 'T'] cs with
  | none => none
  | some r0 =>
    match r0.dropWhile isDigit with
    | 'H' :: r1 =>
      match r1.dropWhile isDigit with
      | 'M' :: r2 =>
        match r2.dropWhile isDigit with
        | '.' :: r3 =>
          match r3.dropWhile isDigit with
          | ['S'] =>
            let h := r0.takeWhile isDigit
            let m := r1.takeWhile isDigit
            let sec := r2.takeWhile isDigit
            let f := r3.takeWhile isDigit
            if h = [] ∨ m = [] ∨ sec = [] ∨ f = [] then none
            else
              some (digitsValue h * 3600000000000 + digitsValue m * 60000000000 +
                digitsValue sec * 1000000000 + digitsValue f * 1000000000 / 10 ^ f.length)
          | _ => none
        | _ => none
      | _ => none
    | _ => none

/-! ## Theorems -/

theorem wrapInt64_of_range (x : Int) (hlo : -2 ^ 63 ≤ x) (hhi : x < 2 ^ 63) :
    wrapInt64 x = x := by
  unfold wrapInt64
  have h : (x + 2 ^ 63) % 2 ^ 64 = x + 2 ^ 63 := by
    apply Int.emod_eq_of_lt <;> omega
  omega

/-- C1 (as stated, refuted): a session whose representation id is `webvtt` and
whose window starts at 0 reports segment 100 as projected available, although
100 is outside `[0, 12)`. -/
theorem C1_counterexample :
    IsProjectedAvailable webvttSession 100 0 = true ∧
      ¬ (webvttSession.firstSegmentId ≤ 100 ∧ (100 : Int) < webvttSession.firstSegmentId + 12) := by
  decide

/-- C1 (amended): for a session whose window bounds fit in an int64,
`IsProjectedAvailable` is true iff the representation id is `webvtt` or
`firstSegmentId ≤ id < firstSegmentId + 12`; the deadline never changes the
result. -/
theorem C1_IsProjectedAvailable_iff {EP : Type} (s : TranscodingSession EP)
    (segmentId deadline : Int)
    (hlo : -2 ^ 63 ≤ s.firstSegmentId) (hhi : s.firstSegmentId + 12 < 2 ^ 63) :
    (IsProjectedAvailable s segmentId deadline = true ↔
        (s.Stream.Representation.RepresentationId = "webvtt" ∨
          (s.firstSegmentId ≤ segmentId ∧ segmentId < s.firstSegmentId + 12))) ∧
      (s.Stream.Representation.RepresentationId ≠ "webvtt" →
        (IsProjectedAvailable s segmentId deadline = true ↔
          (s.firstSegmentId ≤ segmentId ∧ segmentId < s.firstSegmentId + 12))) ∧
      (∀ deadline2 : Int,
        IsProjectedAvailable s segmentId deadline2 = IsProjectedAvailable s segmentId deadline) := by
  have hw : wrapInt64 (s.firstSegmentId + segmentsPerSession) = s.firstSegmentId + 12 := by
    apply wrapInt64_of_range <;> simp only [segmentsPerSession] <;> omega
  refine ⟨?_, ?_, fun _ => rfl⟩
  · unfold IsProjectedAvailable
    by_cases h : s.Stream.Representation.RepresentationId = "webvtt"
    · simp [h]
    · simp [h, hw]
  · intro h
    unfold IsProjectedAvailable
    simp [h, hw]

/-- Witness for C1 (amended): the subtitle session at segment 100. -/
theorem C1_IsProjectedAvailable_iff_witness :
    (IsProjectedAvailable webvttSession 100 7 = true ↔
        (webvttSession.Stream.Representation.RepresentationId = "webvtt" ∨
          (webvttSession.firstSegmentId ≤ 100 ∧ (100 : Int) < webvttSession.firstSegmentId + 12))) ∧
      (webvttSession.Stream.Representation.RepresentationId ≠ "webvtt" →
        (IsProjectedAvailable webvttSession 100 7 = true ↔
          (webvttSession.firstSegmentId ≤ 100 ∧ (100 : Int) < webvttSession.firstSegmentId + 12))) ∧
      (∀ deadline2 : Int,
        IsProjectedAvailable webvttSession 100 deadline2 = IsProjectedAvailable webvttSession 100 7) :=
  C1_IsProjectedAvailable_iff webvttSession 100 7 (by decide) (by decide)

/-! ### Resolver (ffmpeg.go) -/

theorem codecLoopHits_iff (codec : String) (l : List String) :
    codecLoopHits codec l = true ↔ codec ∈ l := by
  induction l with
  | nil => simp [codecLoopHits]
  | cons p rest ih =>
    unfold codecLoopHits
    by_cases h : p = codec
    · simp [h]
    · have h2 : ¬ codec = p := fun e => h e.symm
      simp [h, h2, ih]

theorem codecLoopHits_eq_false (codec : String) (l : List String) (h : codec ∉ l) :
    codecLoopHits codec l = false := by
  cases hc : codecLoopHits codec l with
  | false => rfl
  | true => exact absurd ((codecLoopHits_iff _ _).1 hc) h

theorem firstPlayable_eq_find {EP : Type} (codecs : List String)
    (reps : List (StreamRepresentation EP)) :
    firstPlayable codecs reps =
      reps.find? (fun r => decide (r.Representation.Codecs ∈ codecs)) := by
  induction reps with
  | nil => rfl
  | cons r rest ih =>
    unfold firstPlayable
    by_cases h : r.Representation.Codecs ∈ codecs
    · simp [(codecLoopHits_iff _ _).2 h, h]
    · simp [codecLoopHits_eq_false _ _ h, h, ih]

theorem firstPlayable_mem {EP : Type} (codecs : List String)
    (reps : List (StreamRepresentation EP)) (r : StreamRepresentation EP)
    (h : firstPlayable codecs reps = some r) :
    r ∈ reps ∧ r.Representation.Codecs ∈ codecs := by
  rw [firstPlayable_eq_find] at h
  refine ⟨List.mem_of_find?_eq_some h, ?_⟩
  have := List.find?_some h
  simpa using this

theorem candidateRepresentations_eq {EP : Type} [Inhabited EP] (env : Collaborators EP)
    (stream : Stream) :
    candidateRepresentations env stream =
      if stream.StreamType = "video" then
        [env.GetTranscodedVideoRepresentation stream
            ("transcode:" ++ env.EncoderParamsToString (env.GetSimilarEncoderParams stream).1)
            (env.GetSimilarEncoderParams stream).1,
          (StreamRepresentationFromRepresentationId env stream "preset:720-5000k-video").1]
      else if stream.StreamType = "audio" then
        [env.GetTranscodedAudioRepresentation stream
            ("transcode:" ++ env.EncoderParamsToString (env.GetSimilarEncoderParams stream).1)
            (env.GetSimilarEncoderParams stream).1,
          (StreamRepresentationFromRepresentationId env stream "preset:128k-audio").1]
      else [] := by
  unfold candidateRepresentations
  by_cases hv : stream.StreamType = "video"
  · have ha : ¬ stream.StreamType = "audio" := by rw [hv]; decide
    simp [hv, ha]
  · by_cases ha : stream.StreamType = "audio"
    · simp [hv, ha]
    · simp [hv, ha]

theorem resolver_transcode_branch {EP : Type} [Inhabited EP] (env : Collaborators EP)
    (stream : Stream) (capabilities : ClientCodecCapabilities)
    (hne : capabilities.PlayableCodecs ≠ [])
    (hnot : stream.Codecs ∉ capabilities.PlayableCodecs) :
    GetTransmuxedOrTranscodedRepresentation env stream capabilities =
      match firstPlayable capabilities.PlayableCodecs (candidateRepresentations env stream) with
      | some r => (r, none)
      | none =>
        (StreamRepresentation.zero EP,
          some (GoError.Errorf "Could not find appropriate representation for stream %s"
            [FmtArg.str stream.StreamType])) := by
  unfold GetTransmuxedOrTranscodedRepresentation
  have h0 : ¬ capabilities.PlayableCodecs.length = 0 := by
    intro h
    exact hne (List.length_eq_zero.mp h)
  simp only [h0, if_false, codecLoopHits_eq_false _ _ hnot]
  rfl

theorem fromId_preset {EP : Type} [Inhabited EP] (env : Collaborators EP) (s : Stream)
    (n : String) (hs : s.StreamType ≠ "subtitle") :
    StreamRepresentationFromRepresentationId env s ("preset:" ++ n) =
      match env.VideoEncoderPresets n with
      | some encoderParams =>
        (env.GetTranscodedVideoRepresentation s ("preset:" ++ n) encoderParams, none)
      | none =>
        match env.AudioEncoderPresets n with
        | some encoderParams =>
          (env.GetTranscodedAudioRepresentation s ("preset:" ++ n) encoderParams, none)
        | none =>
          (StreamRepresentation.zero EP,
            some (GoError.Errorf "No such stream %d/%s found for file %s"
              [FmtArg.int s.StreamId, FmtArg.str ("preset:" ++ n), FmtArg.str s.MediaFileURL])) := by
  have hd : ¬ ("preset:" ++ n = "direct") := by
    intro h
    have h2 := congrArg String.data h
    simp only [String.data_append] at h2
    exact absurd (List.cons.inj h2).1 (by decide)
  have hp : HasPrefix ("preset:" ++ n) "preset:" = true := by
    simp [HasPrefix, String.toList]
  have hsl : sliceFrom ("preset:" ++ n) 7 = n := by
    simp only [sliceFrom, String.toList, String.data_append]
    rfl
  unfold StreamRepresentationFromRepresentationId
  simp only [hs, hd, hp, hsl, if_false, if_true]

theorem fromId_transcode {EP : Type} [Inhabited EP] (env : Collaborators EP) (s : Stream)
    (x : String) (hs : s.StreamType ≠ "subtitle") :
    StreamRepresentationFromRepresentationId env s ("transcode:" ++ x) =
      match env.EncoderParamsFromString x with
      | (_, some err) => (StreamRepresentation.zero EP, some err)
      | (encoderParams, none) =>
        if s.StreamType = "video" then
          (env.GetTranscodedVideoRepresentation s ("transcode:" ++ x) encoderParams, none)
        else if s.StreamType = "audio" then
          (env.GetTranscodedAudioRepresentation s ("transcode:" ++ x) encoderParams, none)
        else
          (StreamRepresentation.zero EP,
            some (GoError.Errorf "No such stream %d/%s found for file %s"
              [FmtArg.int s.StreamId, FmtArg.str ("transcode:" ++ x),
                FmtArg.str s.MediaFileURL])) := by
  have hd : ¬ ("transcode:" ++ x = "direct") := by
    intro h
    have h2 := congrArg String.data h
    simp only [String.data_append] at h2
    exact absurd (List.cons.inj h2).1 (by decide)
  have hp : HasPrefix ("transcode:" ++ x) "preset:" = false := by
    simp only [HasPrefix, String.toList, String.data_append]
    rfl
  have ht : HasPrefix ("transcode:" ++ x) "transcode:" = true := by
    simp [HasPrefix, String.toList]
  have hsl : sliceFrom ("transcode:" ++ x) 10 = x := by
    simp only [sliceFrom, String.toList, String.data_append]
    rfl
  unfold StreamRepresentationFromRepresentationId
  simp only [hs, hd, hp, ht, hsl, if_false, if_true, Bool.false_eq_true]

theorem fromId_direct {EP : Type} [Inhabited EP] (env : Collaborators EP) (s : Stream)
    (r : StreamRepresentation EP) (hs : s.StreamType ≠ "subtitle")
    (hr : env.GetTransmuxedRepresentation s = (r, none))
    (hid : r.Representation.RepresentationId = "direct") :
    StreamRepresentationFromRepresentationId env s "direct" = (r, none) := by
  unfold StreamRepresentationFromRepresentationId
  simp only [hs, hr, hid, if_false, if_true]

theorem fromId_subtitle {EP : Type} [Inhabited EP] (env : Collaborators EP) (s : Stream)
    (representationId : String) (hs : s.StreamType = "subtitle") :
    StreamRepresentationFromRepresentationId env s representationId =
      (env.GetSubtitleStreamRepresentation s, none) := by
  unfold StreamRepresentationFromRepresentationId
  simp only [hs, if_true]

theorem resolver_transmux_branch {EP : Type} [Inhabited EP] (env : Collaborators EP)
    (stream : Stream) (capabilities : ClientCodecCapabilities)
    (h : capabilities.PlayableCodecs = [] ∨ stream.Codecs ∈ capabilities.PlayableCodecs) :
    GetTransmuxedOrTranscodedRepresentation env stream capabilities =
      env.GetTransmuxedRepresentation stream := by
  unfold GetTransmuxedOrTranscodedRepresentation
  rcases h with h | h
  · simp [h]
  · simp [(codecLoopHits_iff _ _).2 h]

/-- C2: when `PlayableCodecs` is empty or contains the stream's codec, the
resolver returns exactly the result of `GetTransmuxedRepresentation`
(representation and error alike), so no transcode candidate is returned. -/
theorem C2_resolver_returns_transmux {EP : Type} [Inhabited EP] (env : Collaborators EP)
    (stream : Stream) (capabilities : ClientCodecCapabilities)
    (h : capabilities.PlayableCodecs = [] ∨ stream.Codecs ∈ capabilities.PlayableCodecs) :
    GetTransmuxedOrTranscodedRepresentation env stream capabilities =
      env.GetTransmuxedRepresentation stream :=
  resolver_transmux_branch env stream capabilities h

/-- Witness for C2: an H.265 video stream and a client that plays H.265. -/
theorem C2_resolver_returns_transmux_witness :
    (([("hev1.1.6.L93.B0" : String)] = [] ∨ videoStream.Codecs ∈ ["hev1.1.6.L93.B0"]) ∧
      GetTransmuxedOrTranscodedRepresentation specCollaborators videoStream
          ⟨["hev1.1.6.L93.B0"]⟩ =
        specCollaborators.GetTransmuxedRepresentation videoStream) :=
  ⟨by decide,
    C2_resolver_returns_transmux specCollaborators videoStream ⟨["hev1.1.6.L93.B0"]⟩
      (by decide)⟩

/-- C3: with a non-empty `PlayableCodecs` that lacks the stream's codec, the
resolver returns the first entry of the ordered candidate list
[similar-parameters transcode, fallback preset] (video: `preset:720-5000k-video`,
audio: `preset:128k-audio`, no candidate for any other stream type) whose codec
string is in `PlayableCodecs`; a returned codec string is a member of
`PlayableCodecs`; otherwise the result is the empty representation and an
error.  The fallback candidate of a video (audio) stream is the transcode
representation of the named preset when the video (audio) table holds it. -/
theorem C3_resolver_first_playable_candidate {EP : Type} [Inhabited EP]
    (env : Collaborators EP) (stream : Stream) (capabilities : ClientCodecCapabilities)
    (hne : capabilities.PlayableCodecs ≠ [])
    (hnot : stream.Codecs ∉ capabilities.PlayableCodecs) :
    (GetTransmuxedOrTranscodedRepresentation env stream capabilities =
      match
        (if stream.StreamType = "video" then
          [env.GetTranscodedVideoRepresentation stream
              ("transcode:" ++ env.EncoderParamsToString (env.GetSimilarEncoderParams stream).1)
              (env.GetSimilarEncoderParams stream).1,
            (StreamRepresentationFromRepresentationId env stream "preset:720-5000k-video").1]
        else if stream.StreamType = "audio" then
          [env.GetTranscodedAudioRepresentation stream
              ("transcode:" ++ env.EncoderParamsToString (env.GetSimilarEncoderParams stream).1)
              (env.GetSimilarEncoderParams stream).1,
            (StreamRepresentationFromRepresentationId env stream "preset:128k-audio").1]
        else []).find?
          (fun r => decide (r.Representation.Codecs ∈ capabilities.PlayableCodecs)) with
      | some r => (r, none)
      | none =>
        (StreamRepresentation.zero EP,
          some (GoError.Errorf "Could not find appropriate representation for stream %s"
            [FmtArg.str stream.StreamType]))) ∧
    (∀ r : StreamRepresentation EP,
      GetTransmuxedOrTranscodedRepresentation env stream capabilities = (r, none) →
        r.Representation.Codecs ∈ capabilities.PlayableCodecs) ∧
    (stream.StreamType ≠ "video" → stream.StreamType ≠ "audio" →
      GetTransmuxedOrTranscodedRepresentation env stream capabilities =
        (StreamRepresentation.zero EP,
          some (GoError.Errorf "Could not find appropriate representation for stream %s"
            [FmtArg.str stream.StreamType]))) ∧
    (∀ p : EP, stream.StreamType = "video" →
      env.VideoEncoderPresets "720-5000k-video" = some p →
        (StreamRepresentationFromRepresentationId env stream "preset:720-5000k-video").1 =
          env.GetTranscodedVideoRepresentation stream "preset:720-5000k-video" p) ∧
    (∀ p : EP, stream.StreamType = "audio" →
      env.VideoEncoderPresets "128k-audio" = none →
      env.AudioEncoderPresets "128k-audio" = some p →
        (StreamRepresentationFromRepresentationId env stream "preset:128k-audio").1 =
          env.GetTranscodedAudioRepresentation stream "preset:128k-audio" p) := by
  have hres := resolver_transcode_branch env stream capabilities hne hnot
  refine ⟨?_, ?_, ?_, ?_, ?_⟩
  · rw [hres, firstPlayable_eq_find, candidateRepresentations_eq]
  · intro r hr
    rw [hres] at hr
    cases hf : firstPlayable capabilities.PlayableCodecs (candidateRepresentations env stream) with
    | none => rw [hf] at hr; simp at hr
    | some r2 =>
      rw [hf] at hr
      have hrr : r2 = r := by simpa using hr
      exact hrr ▸ (firstPlayable_mem _ _ _ hf).2
  · intro hv ha
    rw [hres, candidateRepresentations_eq]
    simp [hv, ha, firstPlayable]
  · intro p hv hp
    have hs : stream.StreamType ≠ "subtitle" := by rw [hv]; decide
    have h := fromId_preset env stream "720-5000k-video" hs
    rw [hp] at h
    have e : ("preset:" ++ "720-5000k-video" : String) = "preset:720-5000k-video" := by decide
    rw [e] at h
    rw [h]
  · intro p ha hvn hp
    have hs : stream.StreamType ≠ "subtitle" := by rw [ha]; decide
    have h := fromId_preset env stream "128k-audio" hs
    rw [hvn, hp] at h
    have e : ("preset:" ++ "128k-audio" : String) = "preset:128k-audio" := by decide
    rw [e] at h
    rw [h]

/-- Witness for C3: an H.265 video stream and a client that plays only H.264;
the similar-parameters candidate is returned. -/
theorem C3_resolver_first_playable_candidate_witness :
    ((["avc1.64001f"] : List String) ≠ [] ∧ videoStream.Codecs ∉ ["avc1.64001f"]) ∧
      (∀ r : StreamRepresentation Nat,
        GetTransmuxedOrTranscodedRepresentation specCollaborators videoStream
            ⟨["avc1.64001f"]⟩ = (r, none) →
          r.Representation.Codecs ∈ ["avc1.64001f"]) ∧
      (GetTransmuxedOrTranscodedRepresentation specCollaborators videoStream
          ⟨["avc1.64001f"]⟩).1.Representation.RepresentationId = "transcode:1000" :=
  ⟨by decide,
    (C3_resolver_first_playable_candidate specCollaborators videoStream ⟨["avc1.64001f"]⟩
      (by decide) (by decide)).2.1,
    by decide⟩

/-- C4 (as stated, refuted): with the subtitle passthrough representation
carrying the id `webvtt`, the resolver gives a subtitle stream and a client
without codec preference the transmux representation (id `direct`) without
error, and `StreamRepresentationFromRepresentationId` maps that id to the
passthrough representation instead. -/
theorem C4_counterexample :
    (GetTransmuxedOrTranscodedRepresentation specCollaborators subtitleStream ⟨[]⟩).2 = none ∧
      (GetTransmuxedOrTranscodedRepresentation specCollaborators subtitleStream
          ⟨[]⟩).1.Representation.RepresentationId = "direct" ∧
      StreamRepresentationFromRepresentationId specCollaborators subtitleStream
          (GetTransmuxedOrTranscodedRepresentation specCollaborators subtitleStream
            ⟨[]⟩).1.Representation.RepresentationId ≠
        ((GetTransmuxedOrTranscodedRepresentation specCollaborators subtitleStream ⟨[]⟩).1,
          none) := by
  decide

/-- C4 (amended): for a stream that is not a subtitle stream, when the transmux
representation has id `direct`, transcode representations carry the id they
are given, `EncoderParamsFromString` inverts `EncoderParamsToString` and the
two fallback preset names are in a preset table, every representation the
resolver returns without error is reproduced by
`StreamRepresentationFromRepresentationId` from its id.  For a subtitle stream
that function returns the passthrough representation whatever the id. -/
theorem C4_round_trip_non_subtitle {EP : Type} [Inhabited EP] (env : Collaborators EP)
    (s : Stream) (c : ClientCodecCapabilities) (r : StreamRepresentation EP)
    (hdirect : ∀ r0 : StreamRepresentation EP,
      env.GetTransmuxedRepresentation s = (r0, none) →
        r0.Representation.RepresentationId = "direct")
    (hvid : ∀ (id : String) (p : EP),
      (env.GetTranscodedVideoRepresentation s id p).Representation.RepresentationId = id)
    (haud : ∀ (id : String) (p : EP),
      (env.GetTranscodedAudioRepresentation s id p).Representation.RepresentationId = id)
    (hinv : env.EncoderParamsFromString
        (env.EncoderParamsToString (env.GetSimilarEncoderParams s).1) =
      ((env.GetSimilarEncoderParams s).1, none))
    (hpreset : ∀ n : String, n = "720-5000k-video" ∨ n = "128k-audio" →
      env.VideoEncoderPresets n ≠ none ∨ env.AudioEncoderPresets n ≠ none) :
    (s.StreamType ≠ "subtitle" →
      GetTransmuxedOrTranscodedRepresentation env s c = (r, none) →
        StreamRepresentationFromRepresentationId env s r.Representation.RepresentationId =
          (r, none)) ∧
    (s.StreamType = "subtitle" →
      ∀ id : String, StreamRepresentationFromRepresentationId env s id =
        (env.GetSubtitleStreamRepresentation s, none)) := by
  refine ⟨?_, fun hs id => fromId_subtitle env s id hs⟩
  intro hs hres
  -- the fallback preset id resolves to a representation carrying that id
  have hfallback : ∀ n : String, n = "720-5000k-video" ∨ n = "128k-audio" →
      StreamRepresentationFromRepresentationId env s
          (StreamRepresentationFromRepresentationId env s
            ("preset:" ++ n)).1.Representation.RepresentationId =
        ((StreamRepresentationFromRepresentationId env s ("preset:" ++ n)).1, none) := by
    intro n hn
    have hp := fromId_preset env s n hs
    cases hv : env.VideoEncoderPresets n with
    | some p =>
      rw [hv] at hp
      simp only at hp
      rw [hp]
      simp only [hvid]
      rw [hp]
    | none =>
      cases ha : env.AudioEncoderPresets n with
      | some p =>
        rw [hv, ha] at hp
        simp only at hp
        rw [hp]
        simp only [haud]
        rw [hp]
      | none =>
        rcases hpreset n hn with h | h
        · exact absurd hv h
        · exact absurd ha h
  by_cases htm : c.PlayableCodecs = [] ∨ s.Codecs ∈ c.PlayableCodecs
  · rw [resolver_transmux_branch env s c htm] at hres
    rw [hdirect r hres]
    exact fromId_direct env s r hs hres (hdirect r hres)
  · have hne : c.PlayableCodecs ≠ [] := fun h => htm (Or.inl h)
    have hnot : s.Codecs ∉ c.PlayableCodecs := fun h => htm (Or.inr h)
    rw [resolver_transcode_branch env s c hne hnot] at hres
    cases hf : firstPlayable c.PlayableCodecs (candidateRepresentations env s) with
    | none => rw [hf] at hres; simp at hres
    | some r2 =>
      rw [hf] at hres
      have hrr : r2 = r := by simpa using hres
      subst hrr
      have hmem := (firstPlayable_mem _ _ _ hf).1
      rw [candidateRepresentations_eq] at hmem
      by_cases hv : s.StreamType = "video"
      · rw [if_pos hv] at hmem
        simp only [List.mem_cons, List.mem_singleton, List.not_mem_nil, or_false] at hmem
        rcases hmem with h | h
        · rw [h, hvid, fromId_transcode env s _ hs, hinv]
          simp only [hv, if_true]
        · have e : ("preset:" ++ "720-5000k-video" : String) = "preset:720-5000k-video" := by
            decide
          have := hfallback "720-5000k-video" (Or.inl rfl)
          rw [e] at this
          rw [h]
          exact this
      · by_cases ha : s.StreamType = "audio"
        · rw [if_neg hv, if_pos ha] at hmem
          simp only [List.mem_cons, List.mem_singleton, List.not_mem_nil, or_false] at hmem
          rcases hmem with h | h
          · rw [h, haud, fromId_transcode env s _ hs, hinv]
            simp only [hv, if_false]
            rw [if_pos ha]
          · have e : ("preset:" ++ "128k-audio" : String) = "preset:128k-audio" := by decide
            have := hfallback "128k-audio" (Or.inr rfl)
            rw [e] at this
            rw [h]
            exact this
        · rw [if_neg hv, if_neg ha] at hmem
          exact absurd hmem (List.not_mem_nil _)

/-- Witness for C4 (amended): the H.265 video stream, a client that plays only
H.264, and the similar-parameters transcode representation `transcode:1000`. -/
theorem C4_round_trip_non_subtitle_witness :
    videoStream.StreamType ≠ "subtitle" ∧
      GetTransmuxedOrTranscodedRepresentation specCollaborators videoStream
          ⟨["avc1.64001f"]⟩ =
        (specCollaborators.GetTranscodedVideoRepresentation videoStream "transcode:1000" 1000,
          none) ∧
      StreamRepresentationFromRepresentationId specCollaborators videoStream
          (specCollaborators.GetTranscodedVideoRepresentation videoStream "transcode:1000"
            1000).Representation.RepresentationId =
        (specCollaborators.GetTranscodedVideoRepresentation videoStream "transcode:1000" 1000,
          none) :=
  ⟨by decide, by decide,
    (C4_round_trip_non_subtitle specCollaborators videoStream ⟨["avc1.64001f"]⟩
      (specCollaborators.GetTranscodedVideoRepresentation videoStream "transcode:1000" 1000)
      (fun r0 h => by
        have h2 := congrArg (fun x => x.1.Representation.RepresentationId) h
        exact h2.symm)
      (fun _ _ => rfl) (fun _ _ => rfl) (by decide)
      (fun n hn => by rcases hn with h | h <;> subst h <;> decide)).1
      (by decide) (by decide)⟩

/-- C5 (the code at the failing input): for the audio stream and the id
`preset:720-5000k-video`, a name that is in the video preset table only,
`StreamRepresentationFromRepresentationId` returns the video transcode
representation without error, where the claim asks for an error. -/
theorem C5_preset_lookup_ignores_stream_type :
    StreamRepresentationFromRepresentationId specCollaborators audioStream
        "preset:720-5000k-video" =
      (specCollaborators.GetTranscodedVideoRepresentation audioStream
        "preset:720-5000k-video" 5000, none) ∧
    audioStream.StreamType = "audio" ∧
    audioStream.StreamType ≠ "subtitle" ∧
    specCollaborators.VideoEncoderPresets "720-5000k-video" = some 5000 ∧
    specCollaborators.AudioEncoderPresets "720-5000k-video" = none := by
  decide

/-! ### Manifest duration (manifest.go) -/

theorem fmtD_natCast (n : Nat) : fmtD (n : Int) = Nat.repr n := by
  unfold fmtD
  have h : ¬ ((n : Int) < 0) := by omega
  simp [h]

theorem tdiv_natCast (a b : Nat) : (a : Int).tdiv (b : Int) = ((a / b : Nat) : Int) :=
  (Int.ofNat_tdiv a b).symm

theorem tmod_natCast (a b : Nat) : (a : Int).tmod (b : Int) = ((a % b : Nat) : Int) :=
  (Int.ofNat_tmod a b).symm

theorem durationXml_transmuxing_nat (d : Nat) :
    BuildTransmuxingManifestFromFile_durationXml (d : Int) =
      "PT" ++ Nat.repr (d / 3600000000000) ++ "H" ++
        Nat.repr (d % 3600000000000 / 60000000000) ++ "M" ++
        Nat.repr (d % 60000000000 / 1000000000) ++ "." ++
        Nat.repr (d % 1000000000 / 1000000) ++ "S" := by
  have hH : Hour = ((3600000000000 : Nat) : Int) := by decide
  have hM : Minute = ((60000000000 : Nat) : Int) := by decide
  have hS : Second = ((1000000000 : Nat) : Int) := by decide
  have hMs : Millisecond = ((1000000 : Nat) : Int) := by decide
  unfold BuildTransmuxingManifestFromFile_durationXml
  rw [hH, hM, hS, hMs]
  simp only [tdiv_natCast, tmod_natCast, fmtD_natCast]

theorem durationXml_transcoding_eq (d : Int) :
    BuildTranscodingManifestFromFile_durationXml d =
      BuildTransmuxingManifestFromFile_durationXml d := rfl

/-- C6: for every total duration of `d` nanoseconds, `d ≥ 0` (in particular
every whole number of milliseconds), both manifest builders render the
duration attribute as `PT` h `H` m `M` s `.` f `S` with h = d / 1 hour,
m = (d mod 1 hour) / 1 minute, s = (d mod 1 minute) / 1 second,
f = (d mod 1 second) / 1 millisecond, each a plain decimal integer; the
duration 1h 2m 3.456s renders as `PT1H2M3.456S`. -/
theorem C6_duration_attribute (d : Nat) :
    BuildTransmuxingManifestFromFile_durationXml (d : Int) =
      "PT" ++ Nat.repr (d / 3600000000000) ++ "H" ++
        Nat.repr (d % 3600000000000 / 60000000000) ++ "M" ++
        Nat.repr (d % 60000000000 / 1000000000) ++ "." ++
        Nat.repr (d % 1000000000 / 1000000) ++ "S" ∧
    BuildTranscodingManifestFromFile_durationXml (d : Int) =
      "PT" ++ Nat.repr (d / 3600000000000) ++ "H" ++
        Nat.repr (d % 3600000000000 / 60000000000) ++ "M" ++
        Nat.repr (d % 60000000000 / 1000000000) ++ "." ++
        Nat.repr (d % 1000000000 / 1000000) ++ "S" ∧
    BuildTransmuxingManifestFromFile_durationXml
        (1 * Hour + 2 * Minute + 3 * Second + 456 * Millisecond) = "PT1H2M3.456S" ∧
    BuildTranscodingManifestFromFile_durationXml
        (1 * Hour + 2 * Minute + 3 * Second + 456 * Millisecond) = "PT1H2M3.456S" := by
  refine ⟨durationXml_transmuxing_nat d, ?_, by decide, by decide⟩
  rw [durationXml_transcoding_eq]
  exact durationXml_transmuxing_nat d

/-! ### GetSegment (session.go) -/

theorem GetSegmentLoop_none_of_never_listed {EP : Type} (Join : String → String → String)
    (s : TranscodingSession EP) (segmentId : Int) (fs : Nat → List String × Option GoError)
    (h : ∀ k, mapLookup (AvailableSegments Join s (fs k)).1 segmentId = none) :
    ∀ fuel k, GetSegmentLoop Join s segmentId fs fuel k = none := by
  intro fuel
  induction fuel with
  | zero => intro k; rfl
  | succ n ih =>
    intro k
    unfold GetSegmentLoop
    simp only [h k]
    exact ih (k + 1)

/-- C7: when `IsProjectedAvailable(segmentId, deadline)` is false, `GetSegment`
returns at once the empty path and a non-nil error, having listed the
directory zero times and slept zero times. -/
theorem C7_GetSegment_fails_immediately {EP : Type} (Join : String → String → String)
    (s : TranscodingSession EP) (segmentId deadline : Int)
    (fs : Nat → List String × Option GoError) (fuel : Nat)
    (h : IsProjectedAvailable s segmentId deadline = false) :
    GetSegment Join s segmentId deadline fs fuel =
      some ⟨"", some (GoError.Errorf
        "Segment not projected to be available within deadline %s"
        [FmtArg.duration deadline]), 0, 0⟩ := by
  unfold GetSegment
  simp [h]

/-- Witness for C7: segment 12 of a session whose window starts at 0. -/
theorem C7_GetSegment_fails_immediately_witness :
    IsProjectedAvailable directSession 12 Second = false ∧
      GetSegment joinPath directSession 12 Second (fun _ => (["stream0_12.m4s"], none)) 0 =
        some ⟨"", some (GoError.Errorf
          "Segment not projected to be available within deadline %s"
          [FmtArg.duration Second]), 0, 0⟩ :=
  ⟨by decide,
    C7_GetSegment_fails_immediately joinPath directSession 12 Second
      (fun _ => (["stream0_12.m4s"], none)) 0 (by decide)⟩

/-- C8 (the code at the failing input): for segment 0 of a session whose window
starts at 0 and a deadline of one second, `GetSegment` has not returned after
any number of polls when the directory stays empty or unreadable; when the
file appears at the sixth listing it returns after 6 listings and 5 sleeps of
500 ms, past the deadline. -/
theorem C8_GetSegment_polls_past_deadline :
    IsProjectedAvailable directSession 0 Second = true ∧
    (∀ fuel : Nat,
      GetSegment joinPath directSession 0 Second (fun _ => ([], none)) fuel = none) ∧
    (∀ fuel : Nat,
      GetSegment joinPath directSession 0 Second
        (fun _ => ([], some (GoError.New "open /tmp/s: no such file or directory"))) fuel =
        none) ∧
    GetSegment joinPath directSession 0 Second
        (fun k => if k < 5 then ([], none) else (["stream0_0.m4s"], none)) 6 =
      some ⟨"/tmp/s/stream0_0.m4s", none, 6, 5⟩ := by
  refine ⟨by decide, ?_, ?_, by decide⟩
  · intro fuel
    have hp : IsProjectedAvailable directSession 0 Second = true := by decide
    unfold GetSegment
    simp only [hp]
    exact GetSegmentLoop_none_of_never_listed joinPath directSession 0
      (fun _ => ([], none)) (fun _ => rfl) fuel 0
  · intro fuel
    have hp : IsProjectedAvailable directSession 0 Second = true := by decide
    unfold GetSegment
    simp only [hp]
    exact GetSegmentLoop_none_of_never_listed joinPath directSession 0
      (fun _ => ([], some (GoError.New "open /tmp/s: no such file or directory")))
      (fun _ => rfl) fuel 0

/-! ### NewTranscodingSession (ffmpeg.go) -/

theorem findSegments_eq_find (segmentId : Int) (windows : List (List Segment))
    (hne : ∀ w ∈ windows, w ≠ []) :
    findSegments segmentId windows =
      Outcome.ok (windows.find? (windowContains segmentId)) := by
  induction windows with
  | nil => rfl
  | cons w rest ih =>
    have hw : w ≠ [] := hne w (List.mem_cons_self _ _)
    have hrest : ∀ v ∈ rest, v ≠ [] := fun v hv => hne v (List.mem_cons_of_mem _ hv)
    obtain ⟨first, hfirst⟩ : ∃ first, w.head? = some first := by
      cases w with
      | nil => exact absurd rfl hw
      | cons a t => exact ⟨a, rfl⟩
    obtain ⟨last, hlast⟩ : ∃ last, w.getLast? = some last := by
      cases hl : w.getLast? with
      | none => exact absurd (List.getLast?_eq_none_iff.mp hl) hw
      | some l => exact ⟨l, rfl⟩
    unfold findSegments
    rw [hfirst, hlast]
    simp only
    by_cases hc : first.SegmentId ≤ segmentId ∧ segmentId ≤ last.SegmentId
    · have hwc : windowContains segmentId w = true := by
        unfold windowContains
        rw [hfirst, hlast]
        simp [hc]
      rw [if_pos hc, List.find?_cons_of_pos _ hwc]
    · have hwc : ¬ (windowContains segmentId w = true) := by
        unfold windowContains
        rw [hfirst, hlast]
        simp [hc]
      rw [if_neg hc, List.find?_cons_of_neg _ hwc]
      exact ih hrest

theorem buildSession_err {EP : Type} (env : SessionCollaborators EP)
    (sr : StreamRepresentation EP) (w : List Segment) (e : GoError)
    (h : (buildSession env sr w).2 = some e) :
    (env.NewTransmuxingSession sr w env.TempDir).2 = some e ∨
      (env.NewSubtitleSession sr w env.TempDir).2 = some e := by
  unfold buildSession at h
  by_cases hd : sr.Representation.RepresentationId = "direct"
  · rw [if_pos hd] at h
    left
    rcases hx : env.NewTransmuxingSession sr w env.TempDir with ⟨sess, err⟩
    rw [hx] at h
    cases err with
    | none => simp at h
    | some e2 => simpa using h
  · rw [if_neg hd] at h
    by_cases hv : sr.Stream.StreamType = "video"
    · rw [if_pos hv] at h; simp at h
    · rw [if_neg hv] at h
      by_cases ha : sr.Stream.StreamType = "audio"
      · rw [if_pos ha] at h; simp at h
      · rw [if_neg ha] at h
        by_cases hsub : sr.Stream.StreamType = "subtitle"
        · right
          rw [if_pos hsub] at h
          rcases hx : env.NewSubtitleSession sr w env.TempDir with ⟨sess, err⟩
          rw [hx] at h
          cases err with
          | none => simp at h
          | some e2 => simpa using h
        · rw [if_neg hsub] at h
          simp at h

/-- C9: for a StreamRepresentation whose windows are all non-empty,
`NewTranscodingSession(sr, id)` returns the nil session and the error
"Segment ID not found in StreamRepresentation" when no window `w` has
`w[0].SegmentId ≤ id ≤ w[last].SegmentId`, and otherwise what the session
constructor builds from the first such window; as the constructors fail with
other errors only, it fails with that error iff no window contains `id`. -/
theorem C9_NewTranscodingSession_segment_lookup {EP : Type} (env : SessionCollaborators EP)
    (sr : StreamRepresentation EP) (segmentId : Int)
    (hne : ∀ w ∈ sr.SegmentStartTimestamps, w ≠ [])
    (hother : ∀ w : List Segment,
      (env.NewTransmuxingSession sr w env.TempDir).2 ≠
          some (GoError.New "Segment ID not found in StreamRepresentation") ∧
        (env.NewSubtitleSession sr w env.TempDir).2 ≠
          some (GoError.New "Segment ID not found in StreamRepresentation")) :
    (NewTranscodingSession env sr segmentId =
      match sr.SegmentStartTimestamps.find? (windowContains segmentId) with
      | none =>
        Outcome.ok (none, some (GoError.New "Segment ID not found in StreamRepresentation"))
      | some w => Outcome.ok (buildSession env sr w)) ∧
    ((∃ r, NewTranscodingSession env sr segmentId = Outcome.ok r ∧
        r.2 = some (GoError.New "Segment ID not found in StreamRepresentation")) ↔
      ¬ ∃ w ∈ sr.SegmentStartTimestamps, ∃ first last,
        w.head? = some first ∧ w.getLast? = some last ∧
          first.SegmentId ≤ segmentId ∧ segmentId ≤ last.SegmentId) := by
  have hmain : NewTranscodingSession env sr segmentId =
      match sr.SegmentStartTimestamps.find? (windowContains segmentId) with
      | none =>
        Outcome.ok (none, some (GoError.New "Segment ID not found in StreamRepresentation"))
      | some w => Outcome.ok (buildSession env sr w) := by
    unfold NewTranscodingSession
    rw [findSegments_eq_find segmentId _ hne]
    cases sr.SegmentStartTimestamps.find? (windowContains segmentId) <;> rfl
  have hcontains : ∀ w : List Segment, windowContains segmentId w = true ↔
      ∃ first last, w.head? = some first ∧ w.getLast? = some last ∧
        first.SegmentId ≤ segmentId ∧ segmentId ≤ last.SegmentId := by
    intro w
    unfold windowContains
    cases hh : w.head? with
    | none => simp
    | some first =>
      cases hl : w.getLast? with
      | none => simp
      | some last => simp
  refine ⟨hmain, ?_⟩
  rw [hmain]
  cases hf : sr.SegmentStartTimestamps.find? (windowContains segmentId) with
  | none =>
    constructor
    · intro _
      rintro ⟨w, hw, hc⟩
      have := List.find?_eq_none.mp hf w hw
      exact this ((hcontains w).2 hc)
    · intro _
      exact ⟨_, rfl, rfl⟩
  | some w =>
    constructor
    · rintro ⟨r, hr, herr⟩
      have hr2 : buildSession env sr w = r := by
        simpa using hr
      rw [← hr2] at herr
      rcases buildSession_err env sr w _ herr with h | h
      · exact absurd h (hother w).1
      · exact absurd h (hother w).2
    · intro hno
      exfalso
      apply hno
      exact ⟨w, List.mem_of_find?_eq_some hf, (hcontains w).1 (List.find?_some hf)⟩

/-- Witness for C9: segment 2 of the representation with windows [0, 1] and
[2] is served from the second window. -/
theorem C9_NewTranscodingSession_segment_lookup_witness :
    (∀ w ∈ twoWindows.SegmentStartTimestamps, w ≠ []) ∧
      NewTranscodingSession specSessionCollaborators twoWindows 2 =
        Outcome.ok (some ⟨twoWindows, "/tmp/transmux", 2⟩, none) ∧
      NewTranscodingSession specSessionCollaborators twoWindows 3 =
        Outcome.ok (none, some (GoError.New "Segment ID not found in StreamRepresentation")) :=
  ⟨by decide,
    (C9_NewTranscodingSession_segment_lookup specSessionCollaborators twoWindows 2
      (by decide) (fun _ => ⟨by simp [specSessionCollaborators],
        by simp [specSessionCollaborators]⟩)).1.trans (by decide),
    by decide⟩


/-! ### AvailableSegments (session.go) -/

theorem digitsValueFrom_append (acc : Nat) (a b : List Char) :
    digitsValueFrom acc (a ++ b) = digitsValueFrom (digitsValueFrom acc a) b := by
  unfold digitsValueFrom
  rw [List.foldl_append]

theorem digitsValueFrom_cons (acc : Nat) (c : Char) (ds : List Char) :
    digitsValueFrom acc (c :: ds) = digitsValueFrom (acc * 10 + (c.toNat - 48)) ds := rfl

theorem le_digitsValueFrom (ds : List Char) : ∀ acc : Nat, acc ≤ digitsValueFrom acc ds := by
  induction ds with
  | nil => intro acc; exact Nat.le_refl _
  | cons c rest ih =>
    intro acc
    rw [digitsValueFrom_cons]
    have := ih (acc * 10 + (c.toNat - 48))
    omega

theorem isDigit_iff (c : Char) : isDigit c = true ↔ 48 ≤ c.toNat ∧ c.toNat ≤ 57 := by
  unfold isDigit
  simp

theorem digitChar_toNat (k : Nat) (hk : k < 10) :
    (Nat.digitChar k).toNat = 48 + k := by
  interval_cases k <;> rfl

theorem toDigitsCore_spec : ∀ (fuel n : Nat) (ds : List Char), n < fuel →
    ∃ l : List Char, Nat.toDigitsCore 10 fuel n ds = l ++ ds ∧ l ≠ [] ∧
      (∀ c ∈ l, isDigit c = true) ∧ digitsValue l = n := by
  intro fuel
  induction fuel with
  | zero => intro n ds h; omega
  | succ f ih =>
    intro n ds h
    have hd : (Nat.digitChar (n % 10)).toNat = 48 + n % 10 :=
      digitChar_toNat _ (Nat.mod_lt _ (by decide))
    have hdig : isDigit (Nat.digitChar (n % 10)) = true := by
      rw [isDigit_iff, hd]
      have := Nat.mod_lt n (show 10 > 0 by decide)
      omega
    rw [Nat.toDigitsCore]
    by_cases h0 : n / 10 = 0
    · refine ⟨[Nat.digitChar (n % 10)], ?_, by simp, ?_, ?_⟩
      · simp [h0]
      · intro c hc
        rw [List.mem_singleton] at hc
        rw [hc]; exact hdig
      · unfold digitsValue digitsValueFrom
        simp only [List.foldl_cons, List.foldl_nil, hd]
        omega
    · have hlt : n / 10 < f := by omega
      obtain ⟨l, hl, hne, hall, hval⟩ := ih (n / 10) (Nat.digitChar (n % 10) :: ds) hlt
      refine ⟨l ++ [Nat.digitChar (n % 10)], ?_, by simp, ?_, ?_⟩
      · simp [h0, hl]
      · intro c hc
        rw [List.mem_append, List.mem_singleton] at hc
        rcases hc with hc | hc
        · exact hall c hc
        · rw [hc]; exact hdig
      · unfold digitsValue at hval ⊢
        rw [digitsValueFrom_append, hval]
        unfold digitsValueFrom
        simp only [List.foldl_cons, List.foldl_nil, hd]
        omega

theorem repr_digits (n : Nat) :
    (Nat.repr n).toList ≠ [] ∧ (∀ c ∈ (Nat.repr n).toList, isDigit c = true) ∧
      digitsValue (Nat.repr n).toList = n := by
  obtain ⟨l, hl, hne, hall, hval⟩ := toDigitsCore_spec (n + 1) n [] (Nat.lt_succ_self n)
  have e : (Nat.repr n).toList = l := by
    unfold Nat.repr Nat.toDigits
    rw [hl]
    simp [List.asString, String.toList]
  rw [e]
  exact ⟨hne, hall, hval⟩


theorem AtoiFastLoop_digits (ds : List Char) (hall : ∀ c ∈ ds, isDigit c = true) :
    ∀ acc : Nat, AtoiFastLoop (ds.map Char.toNat) (acc : Int) =
      some ((digitsValueFrom acc ds : Nat) : Int) := by
  induction ds with
  | nil => intro acc; rfl
  | cons c rest ih =>
    intro acc
    have hc := (isDigit_iff c).1 (hall c (List.mem_cons_self _ _))
    have hrest : ∀ d ∈ rest, isDigit d = true := fun d hd => hall d (List.mem_cons_of_mem _ hd)
    have h1 : (c.toNat + 256 - 48) % 256 = c.toNat - 48 := by omega
    have h2 : ¬ (c.toNat - 48 > 9) := by omega
    rw [List.map_cons, AtoiFastLoop]
    simp only [h1, h2, if_false]
    rw [digitsValueFrom_cons, ← ih hrest (acc * 10 + (c.toNat - 48))]
    congr 1

theorem ParseUintLoop_digits (ds : List Char) (hall : ∀ c ∈ ds, isDigit c = true) :
    ∀ acc : Nat, digitsValueFrom acc ds < 2 ^ 63 →
      ParseUintLoop (ds.map Char.toNat) acc = (digitsValueFrom acc ds, none) := by
  induction ds with
  | nil => intro acc _; rfl
  | cons c rest ih =>
    intro acc hlt
    have hc := (isDigit_iff c).1 (hall c (List.mem_cons_self _ _))
    have hrest : ∀ d ∈ rest, isDigit d = true := fun d hd => hall d (List.mem_cons_of_mem _ hd)
    rw [digitsValueFrom_cons] at hlt
    have hmono := le_digitsValueFrom rest (acc * 10 + (c.toNat - 48))
    have hsmall : acc * 10 + (c.toNat - 48) < 2 ^ 63 := lt_of_le_of_lt hmono hlt
    have hcut : ¬ (acc ≥ (2 ^ 64 - 1) / 10 + 1) := by
      norm_num at hsmall ⊢
      omega
    have hmod : (acc * 10 + (c.toNat - 48)) % 2 ^ 64 = acc * 10 + (c.toNat - 48) := by
      apply Nat.mod_eq_of_lt
      norm_num at hsmall ⊢
      omega
    have hov : ¬ (acc * 10 + (c.toNat - 48) < acc * 10 ∨
        acc * 10 + (c.toNat - 48) > 2 ^ 64 - 1) := by
      norm_num at hsmall ⊢
      omega
    rw [List.map_cons, ParseUintLoop]
    simp only [hc, and_self, if_true, hcut, if_false, hmod, hov]
    rw [digitsValueFrom_cons]
    exact ih hrest _ hlt

theorem Atoi_digits (ds : List Char) (hne : ds ≠ []) (hall : ∀ c ∈ ds, isDigit c = true)
    (hfit : digitsValue ds < 2 ^ 63) :
    Atoi (ds.map Char.toNat) = (((digitsValue ds : Nat) : Int), none) := by
  cases ds with
  | nil => exact absurd rfl hne
  | cons c tl =>
    have hc := (isDigit_iff c).1 (hall c (List.mem_cons_self _ _))
    have h45 : ¬ (c.toNat = 45) := by omega
    have h43 : ¬ (c.toNat = 43) := by omega
    have hfast := AtoiFastLoop_digits (c :: tl) hall 0
    have hslow := ParseUintLoop_digits (c :: tl) hall 0 hfit
    rw [List.map_cons] at hfast hslow
    unfold Atoi
    rw [List.map_cons]
    by_cases hlen : 0 < (c.toNat :: tl.map Char.toNat).length ∧
        (c.toNat :: tl.map Char.toNat).length < 19
    · rw [if_pos hlen]
      have hs1 : ¬ ((c.toNat :: tl.map Char.toNat).length < 1) := by simp
      simp only [h45, h43, or_self, if_false, hs1]
      have hf2 : AtoiFastLoop (c.toNat :: List.map Char.toNat tl) 0 =
          some ((digitsValueFrom 0 (c :: tl) : Nat) : Int) := by
        simpa using hfast
      rw [hf2]
      simp [h45, digitsValue]
    · rw [if_neg hlen]
      unfold ParseInt
      simp only [h45, h43, or_self, if_false, decide_False]
      unfold ParseUint
      simp only [List.cons_ne_nil, if_false]
      rw [hslow]
      have hv : ¬ (digitsValueFrom 0 (c :: tl) ≥ 2 ^ 63) := by
        unfold digitsValue at hfit
        omega
      have hv2 : digitsValueFrom 0 (c :: tl) < 9223372036854775808 := by
        unfold digitsValue at hfit
        norm_num at hfit
        exact hfit
      simp [hv2, digitsValue]

theorem utf8Bytes_ascii (c : Char) (h : c.toNat < 128) : utf8Bytes c = [c.toNat] := by
  unfold utf8Bytes
  simp [h]

theorem goBytes_append (a b : List Char) : goBytes (a ++ b) = goBytes a ++ goBytes b := by
  induction a with
  | nil => rfl
  | cons c rest ih => simp [goBytes, ih]

theorem goBytes_digits (ds : List Char) (hall : ∀ c ∈ ds, isDigit c = true) :
    goBytes ds = ds.map Char.toNat := by
  induction ds with
  | nil => rfl
  | cons c rest ih =>
    have hc := (isDigit_iff c).1 (hall c (List.mem_cons_self _ _))
    have hrest : ∀ d ∈ rest, isDigit d = true := fun d hd => hall d (List.mem_cons_of_mem _ hd)
    rw [goBytes, utf8Bytes_ascii c (by omega), ih hrest]
    rfl

theorem segmentFsNumber_of_match (ds : List Char) (c : Char) (hne : ds ≠ [])
    (hall : ∀ d ∈ ds, isDigit d = true) (hc : c.toNat < 128)
    (hfit : digitsValue ds < 2 ^ 63) :
    segmentFsNumber (['s', 't', 'r', 'e', 'a', 'm', '0', '_'] ++ ds ++ [c] ++ ['m', '4', 's']) =
      (digitsValue ds : Nat) := by
  have hb : goBytes (['s', 't', 'r', 'e', 'a', 'm', '0', '_'] ++ ds ++ [c] ++ ['m', '4', 's']) =
      ([115, 116, 114, 101, 97, 109, 48, 95] ++ ds.map Char.toNat) ++
        ([c.toNat] ++ [109, 52, 115]) := by
    rw [goBytes_append, goBytes_append, goBytes_append, goBytes_digits ds hall]
    have h1 : goBytes ['s', 't', 'r', 'e', 'a', 'm', '0', '_'] =
        [115, 116, 114, 101, 97, 109, 48, 95] := by decide
    have h2 : goBytes ['m', '4', 's'] = [109, 52, 115] := by decide
    have h3 : goBytes [c] = [c.toNat] := by
      simp [goBytes, utf8Bytes_ascii c hc]
    rw [h1, h2, h3]
    simp
  unfold segmentFsNumber
  rw [hb]
  have hlen : (([115, 116, 114, 101, 97, 109, 48, 95] ++ ds.map Char.toNat) ++
      ([c.toNat] ++ [109, 52, 115])).length - 4 =
      ([115, 116, 114, 101, 97, 109, 48, 95] ++ ds.map Char.toNat).length := by
    simp
  rw [hlen]
  unfold sliceBytes
  rw [List.take_left']
  · have hd : List.drop 8 ([115, 116, 114, 101, 97, 109, 48, 95] ++ ds.map Char.toNat) =
        ds.map Char.toNat := by
      rfl
    rw [hd, Atoi_digits ds hne hall hfit]
  · rfl


theorem dropLiteral_eq_some (p : List Char) :
    ∀ cs rest : List Char, dropLiteral p cs = some rest ↔ cs = p ++ rest := by
  induction p with
  | nil =>
    intro cs rest
    simp [dropLiteral, eq_comm]
  | cons a ps ih =>
    intro cs rest
    cases cs with
    | nil => simp [dropLiteral]
    | cons c t =>
      unfold dropLiteral
      by_cases hac : a = c
      · simp [hac, ih]
      · have hca : ¬ c = a := fun e => hac e.symm
        simp [hac, hca]

theorem dropLiteral_isSome (p tl : List Char) (h : (dropLiteral p tl).isSome = true) :
    ∃ r, tl = p ++ r := by
  cases hd : dropLiteral p tl with
  | none => rw [hd] at h; simp at h
  | some r => exact ⟨r, (dropLiteral_eq_some p tl r).1 hd⟩

theorem take_all_of_le_takeWhile (q : Char → Bool) :
    ∀ (l : List Char) (j : Nat), j ≤ (l.takeWhile q).length → ∀ x ∈ l.take j, q x = true := by
  intro l
  induction l with
  | nil => intro j _ x hx; simp at hx
  | cons a t ih =>
    intro j hj x hx
    cases j with
    | zero => simp at hx
    | succ j =>
      by_cases ha : q a = true
      · rw [List.takeWhile_cons_of_pos ha] at hj
        rw [List.take_succ_cons, List.mem_cons] at hx
        rcases hx with hx | hx
        · rw [hx]; exact ha
        · exact ih j (by simpa using hj) x hx
      · rw [List.takeWhile_cons_of_neg ha] at hj
        simp at hj

theorem matchTail_some (rest : List Char) :
    ∀ (k : Nat) (m : List Char), matchTail rest k = some m →
      ∃ (j : Nat) (c : Char) (r : List Char), 0 < j ∧ j ≤ k ∧ c ≠ Char.ofNat 10 ∧
        rest = rest.take j ++ c :: 'm' :: '4' :: 's' :: r ∧
        m = rest.take j ++ [c, 'm', '4', 's'] := by
  intro k
  induction k with
  | zero => intro m h; simp [matchTail] at h
  | succ k ih =>
    intro m h
    have hrec : matchTail rest k = some m →
        ∃ (j : Nat) (c : Char) (r : List Char), 0 < j ∧ j ≤ k + 1 ∧ c ≠ Char.ofNat 10 ∧
          rest = rest.take j ++ c :: 'm' :: '4' :: 's' :: r ∧
          m = rest.take j ++ [c, 'm', '4', 's'] := by
      intro h2
      obtain ⟨j, c, r, h0, hk, hc, hr, hm⟩ := ih m h2
      exact ⟨j, c, r, h0, Nat.le_succ_of_le hk, hc, hr, hm⟩
    unfold matchTail at h
    cases hd : rest.drop (k + 1) with
    | nil =>
      rw [hd] at h
      exact hrec h
    | cons c tl =>
      rw [hd] at h
      simp only at h
      by_cases hcond : c ≠ Char.ofNat 10 ∧ (dropLiteral ['m', '4', 's'] tl).isSome = true
      · rw [if_pos hcond] at h
        obtain ⟨r, hr⟩ := dropLiteral_isSome _ _ hcond.2
        refine ⟨k + 1, c, r, Nat.succ_pos k, Nat.le_refl _, hcond.1, ?_, ?_⟩
        · have := (List.take_append_drop (k + 1) rest).symm
          rw [hd, hr] at this
          exact this
        · exact (Option.some.inj h).symm
      · rw [if_neg hcond] at h
        exact hrec h

theorem matchHere_some (cs m : List Char) (h : matchHere cs = some m) :
    ∃ (ds : List Char) (c : Char) (r : List Char),
      m = ['s', 't', 'r', 'e', 'a', 'm', '0', '_'] ++ ds ++ [c] ++ ['m', '4', 's'] ∧
      ds ≠ [] ∧ (∀ d ∈ ds, isDigit d = true) ∧ c ≠ Char.ofNat 10 ∧ cs = m ++ r := by
  unfold matchHere at h
  cases hd : dropLiteral ['s', 't', 'r', 'e', 'a', 'm', '0', '_'] cs with
  | none => rw [hd] at h; simp at h
  | some rest =>
    rw [hd] at h
    simp only at h
    cases ht : matchTail rest (rest.takeWhile isDigit).length with
    | none => rw [ht] at h; simp at h
    | some m2 =>
      rw [ht] at h
      simp only at h
      have hm : m = ['s', 't', 'r', 'e', 'a', 'm', '0', '_'] ++ m2 := (Option.some.inj h).symm
      obtain ⟨j, c, r, h0, hk, hc, hr, hm2⟩ := matchTail_some rest _ m2 ht
      have hcs := (dropLiteral_eq_some _ cs rest).1 hd
      refine ⟨rest.take j, c, r, ?_, ?_, ?_, hc, ?_⟩
      · rw [hm, hm2]; simp
      · intro hnil
        have hle : j ≤ rest.length :=
          le_trans hk (List.takeWhile_prefix isDigit).length_le
        have hl2 : (rest.take j).length = j := by
          rw [List.length_take]
          omega
        rw [hnil] at hl2
        simp at hl2
        omega
      · exact take_all_of_le_takeWhile isDigit rest j hk
      · rw [hcs, hm, hm2]
        conv_lhs => rw [hr]
        simp

theorem FindString_spec : ∀ cs : List Char, FindString cs ≠ [] →
    ∃ (ds : List Char) (c : Char) (pre post : List Char),
      FindString cs = ['s', 't', 'r', 'e', 'a', 'm', '0', '_'] ++ ds ++ [c] ++ ['m', '4', 's'] ∧
      ds ≠ [] ∧ (∀ d ∈ ds, isDigit d = true) ∧ c ≠ Char.ofNat 10 ∧
      cs = pre ++ FindString cs ++ post := by
  intro cs
  induction cs with
  | nil => intro h; exact absurd rfl h
  | cons a t ih =>
    intro h
    unfold FindString at h ⊢
    cases hm : matchHere (a :: t) with
    | some m =>
      obtain ⟨ds, c, r, h1, h2, h3, h4, h5⟩ := matchHere_some _ _ hm
      exact ⟨ds, c, [], r, h1, h2, h3, h4, by simpa using h5⟩
    | none =>
      rw [hm] at h
      simp only at h ⊢
      obtain ⟨ds, c, pre, post, h1, h2, h3, h4, h5⟩ := ih h
      refine ⟨ds, c, a :: pre, post, h1, h2, h3, h4, ?_⟩
      rw [List.cons_append, List.cons_append, ← h5]

theorem takeWhile_digits_append (ds rest : List Char) (hall : ∀ d ∈ ds, isDigit d = true)
    (c : Char) (hc : isDigit c = false) :
    (ds ++ c :: rest).takeWhile isDigit = ds := by
  induction ds with
  | nil => simp [List.takeWhile, hc]
  | cons a t ih =>
    have ha := hall a (List.mem_cons_self _ _)
    have ht : ∀ d ∈ t, isDigit d = true := fun d hd => hall d (List.mem_cons_of_mem _ hd)
    rw [List.cons_append, List.takeWhile_cons_of_pos ha, ih ht]

theorem FindString_exact (ds : List Char) (hne : ds ≠ [])
    (hall : ∀ d ∈ ds, isDigit d = true) :
    FindString (['s', 't', 'r', 'e', 'a', 'm', '0', '_'] ++ ds ++ ['.', 'm', '4', 's']) =
      ['s', 't', 'r', 'e', 'a', 'm', '0', '_'] ++ ds ++ ['.', 'm', '4', 's'] := by
  have hdrop : dropLiteral ['s', 't', 'r', 'e', 'a', 'm', '0', '_']
      (['s', 't', 'r', 'e', 'a', 'm', '0', '_'] ++ ds ++ ['.', 'm', '4', 's']) =
      some (ds ++ ['.', 'm', '4', 's']) := by
    rw [dropLiteral_eq_some]
    simp
  have htw : (ds ++ ['.', 'm', '4', 's']).takeWhile isDigit = ds :=
    takeWhile_digits_append ds ['m', '4', 's'] hall '.' (by decide)
  obtain ⟨k, hk⟩ : ∃ k, ds.length = k + 1 := by
    cases ds with
    | nil => exact absurd rfl hne
    | cons a t => exact ⟨t.length, rfl⟩
  have htail : matchTail (ds ++ ['.', 'm', '4', 's']) ds.length =
      some (ds ++ ['.', 'm', '4', 's']) := by
    rw [hk]
    unfold matchTail
    rw [← hk, List.drop_left, List.take_left]
    simp only
    have hcond : ('.' ≠ Char.ofNat 10 ∧
        (dropLiteral ['m', '4', 's'] ['m', '4', 's']).isSome = true) := by decide
    rw [if_pos hcond]
  have hhere : matchHere (['s', 't', 'r', 'e', 'a', 'm', '0', '_'] ++ ds ++ ['.', 'm', '4', 's']) =
      some (['s', 't', 'r', 'e', 'a', 'm', '0', '_'] ++ ds ++ ['.', 'm', '4', 's']) := by
    unfold matchHere
    rw [hdrop]
    simp only
    rw [htw, htail]
    simp
  have hshape : ['s', 't', 'r', 'e', 'a', 'm', '0', '_'] ++ ds ++ ['.', 'm', '4', 's'] =
      's' :: (['t', 'r', 'e', 'a', 'm', '0', '_'] ++ ds ++ ['.', 'm', '4', 's']) := rfl
  rw [hshape] at hhere ⊢
  unfold FindString
  rw [hhere]


theorem availableLoop_cons (Join : String → String → String) (dir : String) (f : String)
    (files : List String) (res : Int → Option String) :
    availableLoop Join dir (f :: files) res =
      if FindString f.toList ≠ [] then
        availableLoop Join dir files
          (fun k => if k = segmentFsNumber (FindString f.toList) then some (Join dir f)
            else res k)
      else availableLoop Join dir files res := rfl

theorem availableLoop_of_no_yield (Join : String → String → String) (dir : String) (k : Int) :
    ∀ (files : List String) (res : Int → Option String),
      (∀ f ∈ files, ¬ yieldsKey f k) → availableLoop Join dir files res k = res k := by
  intro files
  induction files with
  | nil => intro res _; rfl
  | cons f rest ih =>
    intro res hno
    have hrest : ∀ g ∈ rest, ¬ yieldsKey g k := fun g hg => hno g (List.mem_cons_of_mem _ hg)
    have hf : ¬ yieldsKey f k := hno f (List.mem_cons_self _ _)
    rw [availableLoop_cons]
    by_cases hm : FindString f.toList ≠ []
    · rw [if_pos hm, ih _ hrest]
      have hk : ¬ (k = segmentFsNumber (FindString f.toList)) := fun e => hf ⟨hm, e.symm⟩
      simp only [hk, if_false]
    · rw [if_neg hm, ih _ hrest]

theorem availableLoop_some (Join : String → String → String) (dir : String) (k : Int)
    (p : String) :
    ∀ (files : List String) (res : Int → Option String),
      availableLoop Join dir files res k = some p →
        (∃ f ∈ files, yieldsKey f k ∧ p = Join dir f) ∨ res k = some p := by
  intro files
  induction files with
  | nil => intro res h; exact Or.inr h
  | cons f rest ih =>
    intro res h
    rw [availableLoop_cons] at h
    by_cases hm : FindString f.toList ≠ []
    · rw [if_pos hm] at h
      rcases ih _ h with ⟨g, hg, hy, hp⟩ | h2
      · exact Or.inl ⟨g, List.mem_cons_of_mem _ hg, hy, hp⟩
      · by_cases hk : k = segmentFsNumber (FindString f.toList)
        · simp only [hk, if_true] at h2
          refine Or.inl ⟨f, List.mem_cons_self _ _, ⟨hm, hk.symm⟩, ?_⟩
          exact (Option.some.inj h2).symm
        · simp only [hk, if_false] at h2
          exact Or.inr h2
    · rw [if_neg hm] at h
      rcases ih _ h with ⟨g, hg, hy, hp⟩ | h2
      · exact Or.inl ⟨g, List.mem_cons_of_mem _ hg, hy, hp⟩
      · exact Or.inr h2

theorem availableLoop_yield (Join : String → String → String) (dir : String) (k : Int) :
    ∀ (files : List String) (res : Int → Option String),
      (∃ f ∈ files, yieldsKey f k) →
        ∃ f ∈ files, yieldsKey f k ∧ availableLoop Join dir files res k = some (Join dir f) := by
  intro files
  induction files with
  | nil => intro res h; obtain ⟨f, hf, _⟩ := h; simp at hf
  | cons f rest ih =>
    intro res _
    rw [availableLoop_cons]
    by_cases hlater : ∃ g ∈ rest, yieldsKey g k
    · by_cases hm : FindString f.toList ≠ []
      · rw [if_pos hm]
        obtain ⟨g, hg, hy, hres⟩ := ih
          (fun k => if k = segmentFsNumber (FindString f.toList) then some (Join dir f)
            else res k) hlater
        exact ⟨g, List.mem_cons_of_mem _ hg, hy, hres⟩
      · rw [if_neg hm]
        obtain ⟨g, hg, hy, hres⟩ := ih res hlater
        exact ⟨g, List.mem_cons_of_mem _ hg, hy, hres⟩
    · have hno : ∀ g ∈ rest, ¬ yieldsKey g k := fun g hg hy => hlater ⟨g, hg, hy⟩
      have hf : yieldsKey f k := by
        rename_i h
        obtain ⟨g, hg, hy⟩ := h
        rw [List.mem_cons] at hg
        rcases hg with hg | hg
        · rw [← hg]; exact hy
        · exact absurd hy (hno g hg)
      refine ⟨f, List.mem_cons_self _ _, hf, ?_⟩
      rw [if_pos hf.1, availableLoop_of_no_yield Join dir k rest _ hno]
      simp only [hf.2, if_true]

theorem exact_name_yields (n : Nat) (hn : n < 2 ^ 63) :
    yieldsKey ("stream0_" ++ Nat.repr n ++ ".m4s") (n : Int) := by
  obtain ⟨hne, hall, hval⟩ := repr_digits n
  have hl : ("stream0_" ++ Nat.repr n ++ ".m4s").toList =
      ['s', 't', 'r', 'e', 'a', 'm', '0', '_'] ++ (Nat.repr n).toList ++ ['.', 'm', '4', 's'] := by
    simp only [String.toList, String.data_append]
  have hfs := FindString_exact (Nat.repr n).toList hne hall
  unfold yieldsKey
  rw [hl, hfs]
  refine ⟨by simp, ?_⟩
  have hsplit : ['s', 't', 'r', 'e', 'a', 'm', '0', '_'] ++ (Nat.repr n).toList ++
      ['.', 'm', '4', 's'] =
      ['s', 't', 'r', 'e', 'a', 'm', '0', '_'] ++ (Nat.repr n).toList ++ ['.'] ++
        ['m', '4', 's'] := by simp
  rw [hsplit, segmentFsNumber_of_match (Nat.repr n).toList '.' hne hall (by decide)
    (by rw [hval]; exact hn), hval]

/-- On a readable listing `AvailableSegments` returns a map in which (1) for
every `n < 2^63` a listed file named exactly `stream0_<decimal n>.m4s` gives
the key `n`, whose value is `outputDir` joined with the name of a listed file
that yields `n`; (2) every key comes from a listed file whose name contains a
match `stream0_<digits><one character>m4s` of the pattern and is the number
computed from that match, which is the decimal value of the digits when the
one character is a single byte (code point below 128) and the value is below
2^63; names without a match add no key; an unreadable directory gives the nil
map and the error. -/
theorem AvailableSegments_keys {EP : Type} (Join : String → String → String)
    (s : TranscodingSession EP) (files : List String) :
    ∃ res : Int → Option String,
      AvailableSegments Join s (files, none) = (some res, none) ∧
      (∀ n : Nat, n < 2 ^ 63 → ("stream0_" ++ Nat.repr n ++ ".m4s") ∈ files →
        ∃ f ∈ files, res (n : Int) = some (Join s.outputDir f) ∧ yieldsKey f (n : Int)) ∧
      (∀ (k : Int) (p : String), res k = some p →
        ∃ f ∈ files, p = Join s.outputDir f ∧
          ∃ (ds : List Char) (c : Char) (pre post : List Char),
            f.toList = pre ++ FindString f.toList ++ post ∧
            FindString f.toList =
              ['s', 't', 'r', 'e', 'a', 'm', '0', '_'] ++ ds ++ [c] ++ ['m', '4', 's'] ∧
            ds ≠ [] ∧ (∀ d ∈ ds, isDigit d = true) ∧ c ≠ Char.ofNat 10 ∧
            k = segmentFsNumber (FindString f.toList) ∧
            (c.toNat < 128 → digitsValue ds < 2 ^ 63 → k = (digitsValue ds : Nat))) ∧
      ((∀ f ∈ files, FindString f.toList = []) → ∀ k : Int, res k = none) ∧
      (∀ err : GoError, AvailableSegments Join s (files, some err) = (none, some err)) := by
  refine ⟨availableLoop Join s.outputDir files (fun _ => none), rfl, ?_, ?_, ?_, fun _ => rfl⟩
  · intro n hn hmem
    obtain ⟨f, hf, hy, hres⟩ := availableLoop_yield Join s.outputDir (n : Int) files
      (fun _ => none) ⟨_, hmem, exact_name_yields n hn⟩
    exact ⟨f, hf, hres, hy⟩
  · intro k p hres
    rcases availableLoop_some Join s.outputDir k p files _ hres with ⟨f, hf, hy, hp⟩ | h
    · obtain ⟨ds, c, pre, post, h1, h2, h3, h4, h5⟩ := FindString_spec f.toList hy.1
      refine ⟨f, hf, hp, ds, c, pre, post, h5, h1, h2, h3, h4, hy.2.symm, ?_⟩
      intro hc hfit
      rw [← hy.2, h1]
      exact segmentFsNumber_of_match ds c h2 h3 hc hfit
    · simp at h
  · intro hno k
    apply availableLoop_of_no_yield
    intro f hf hy
    exact hy.1 (hno f hf)

/-- The listing `init.mp4`, `stream0_7.m4s` gives the key 7 with the joined
path of a listed file that yields 7. -/
theorem AvailableSegments_keys_example :
    ∃ res : Int → Option String,
      AvailableSegments joinPath directSession (["init.mp4", "stream0_7.m4s"], none) =
        (some res, none) ∧
      ∃ f ∈ ["init.mp4", "stream0_7.m4s"],
        res 7 = some (joinPath directSession.outputDir f) ∧ yieldsKey f 7 := by
  obtain ⟨res, hres, h1, _⟩ :=
    AvailableSegments_keys joinPath directSession ["init.mp4", "stream0_7.m4s"]
  exact ⟨res, hres, h1 7 (by decide) (by decide)⟩

/-- C10 (the code at the failing input): the listed name `stream0_12ém4s`
contains the match `stream0_12ém4s` of the pattern, with the digit group `12`
and `é` as the one character; the slice
`match[len("segment_") : len(match)-len(".m4s")]` is the bytes of `12` followed
by the first byte of the two-byte `é`, not the digit group; `strconv.Atoi`
fails on it and the key added is 0, while no key 12 is added.  The name
`stream0_12.m4s` gives the key 12. -/
theorem C10_slice_keeps_byte_of_multibyte_character :
    FindString "stream0_12ém4s".toList =
        ['s', 't', 'r', 'e', 'a', 'm', '0', '_'] ++ ['1', '2'] ++ ['é'] ++ ['m', '4', 's'] ∧
      digitsValue ['1', '2'] = 12 ∧
      goBytes ['1', '2'] = [49, 50] ∧
      sliceBytes (goBytes "stream0_12ém4s".toList) 8
          ((goBytes "stream0_12ém4s".toList).length - 4) = [49, 50, 195] ∧
      Atoi [49, 50, 195] = (0, some ErrSyntax) ∧
      mapLookup (AvailableSegments joinPath directSession (["stream0_12ém4s"], none)).1 0 =
        some "/tmp/s/stream0_12ém4s" ∧
      mapLookup (AvailableSegments joinPath directSession (["stream0_12ém4s"], none)).1 12 =
        none ∧
      mapLookup (AvailableSegments joinPath directSession (["stream0_12.m4s"], none)).1 12 =
        some "/tmp/s/stream0_12.m4s" := by
  decide

/-! ### ParseSerieName (series.go) -/

/-- C11 (the code at the failing input): the name `show 12x05` has no
`S<digits>E<digits>` pattern and the fallback form with season 12 and episode
5; `ParseSerieName` returns season 2 (the greedy `.*` of the fallback pattern
keeps the first season digit in the title) and episode 5.  One-digit seasons
(`show 3x07`), `03x03` and the main pattern (`show S12E05`) give the written
numbers. -/
theorem C11_fallback_season_loses_first_digit :
    ParseSerieName (fun t => t) "show 12x05" = ⟨0, "show 1", 5, 2⟩ ∧
    seriesRegexFind "show 12x05".toList = none ∧
    seriesFallbackRegexFind "show 12x05".toList = some ("show 1".toList, ['2'], ['0', '5']) ∧
    ParseSerieName (fun t => t) "show 3x07" = ⟨0, "show ", 7, 3⟩ ∧
    ParseSerieName (fun t => t) "03x03" = ⟨0, "0", 3, 3⟩ ∧
    ParseSerieName (fun t => t) "show S12E05" = ⟨0, "show ", 5, 12⟩ := by
  decide

/-! ### Reading the duration attribute back (manifest.go) -/

theorem dropWhile_digits_append (ds rest : List Char) (hall : ∀ d ∈ ds, isDigit d = true)
    (c : Char) (hc : isDigit c = false) :
    (ds ++ c :: rest).dropWhile isDigit = c :: rest := by
  induction ds with
  | nil => simp [List.dropWhile, hc]
  | cons a t ih =>
    have ha := hall a (List.mem_cons_self _ _)
    have ht : ∀ d ∈ t, isDigit d = true := fun d hd => hall d (List.mem_cons_of_mem _ hd)
    rw [List.cons_append, List.dropWhile_cons_of_pos ha, ih ht]

theorem digitsValueFrom_lt (ds : List Char) (hall : ∀ d ∈ ds, isDigit d = true) :
    ∀ acc : Nat, digitsValueFrom acc ds < (acc + 1) * 10 ^ ds.length := by
  induction ds with
  | nil => intro acc; simp [digitsValueFrom]
  | cons c rest ih =>
    intro acc
    have hc := (isDigit_iff c).1 (hall c (List.mem_cons_self _ _))
    have hrest : ∀ d ∈ rest, isDigit d = true := fun d hd => hall d (List.mem_cons_of_mem _ hd)
    rw [digitsValueFrom_cons, List.length_cons, pow_succ]
    have h1 := ih hrest (acc * 10 + (c.toNat - 48))
    have h2 : acc * 10 + (c.toNat - 48) + 1 ≤ (acc + 1) * 10 := by omega
    calc digitsValueFrom (acc * 10 + (c.toNat - 48)) rest
        < (acc * 10 + (c.toNat - 48) + 1) * 10 ^ rest.length := h1
      _ ≤ ((acc + 1) * 10) * 10 ^ rest.length := Nat.mul_le_mul_right _ h2
      _ = (acc + 1) * (10 ^ rest.length * 10) := by ring

theorem repr_lt_pow_length (n : Nat) : n < 10 ^ (Nat.repr n).toList.length := by
  obtain ⟨_, hall, hval⟩ := repr_digits n
  have h := digitsValueFrom_lt (Nat.repr n).toList hall 0
  unfold digitsValue at hval
  rw [hval] at h
  simpa using h

theorem repr_toList_length (n : Nat) : (Nat.repr n).toList.length = (Nat.repr n).length := rfl

theorem repr_length_of_millis (f : Nat) (hf : f < 1000) :
    (f < 10 → (Nat.repr f).toList.length = 1) ∧
    (10 ≤ f → f < 100 → (Nat.repr f).toList.length = 2) ∧
    (100 ≤ f → (Nat.repr f).toList.length = 3) := by
  have hlow := repr_lt_pow_length f
  have hne := (repr_digits f).1
  have hpos : 0 < (Nat.repr f).toList.length := List.length_pos.mpr hne
  refine ⟨?_, ?_, ?_⟩
  · intro h
    have hup := Nat.repr_length f 1 (by decide) (by omega)
    rw [← repr_toList_length] at hup
    omega
  · intro h1 h2
    have hup := Nat.repr_length f 2 (by decide) (by omega)
    rw [← repr_toList_length] at hup
    have : (Nat.repr f).toList.length ≠ 1 := by
      intro e
      rw [e] at hlow
      omega
    omega
  · intro h1
    have hup := Nat.repr_length f 3 (by decide) (by omega)
    rw [← repr_toList_length] at hup
    have h1' : (Nat.repr f).toList.length ≠ 1 := by
      intro e
      rw [e] at hlow
      omega
    have h2' : (Nat.repr f).toList.length ≠ 2 := by
      intro e
      rw [e] at hlow
      omega
    omega

theorem readIsoDuration_rendered (h m sec f : Nat) :
    readIsoDuration ("PT" ++ Nat.repr h ++ "H" ++ Nat.repr m ++ "M" ++ Nat.repr sec ++ "." ++
        Nat.repr f ++ "S").toList =
      some (h * 3600000000000 + m * 60000000000 + sec * 1000000000 +
        f * 1000000000 / 10 ^ (Nat.repr f).toList.length) := by
  obtain ⟨hne1, hall1, hval1⟩ := repr_digits h
  obtain ⟨hne2, hall2, hval2⟩ := repr_digits m
  obtain ⟨hne3, hall3, hval3⟩ := repr_digits sec
  obtain ⟨hne4, hall4, hval4⟩ := repr_digits f
  have hl : ("PT" ++ Nat.repr h ++ "H" ++ Nat.repr m ++ "M" ++ Nat.repr sec ++ "." ++
      Nat.repr f ++ "S").toList =
      ['P', 'T'] ++ ((Nat.repr h).toList ++ 'H' :: ((Nat.repr m).toList ++ 'M' ::
        ((Nat.repr sec).toList ++ '.' :: ((Nat.repr f).toList ++ ['S'])))) := by
    simp only [String.toList, String.data_append]
    simp
  rw [hl]
  unfold readIsoDuration
  have hd0 : dropLiteral ['P', 'T'] (['P', 'T'] ++ ((Nat.repr h).toList ++ 'H' ::
      ((Nat.repr m).toList ++ 'M' :: ((Nat.repr sec).toList ++ '.' ::
        ((Nat.repr f).toList ++ ['S']))))) =
      some ((Nat.repr h).toList ++ 'H' :: ((Nat.repr m).toList ++ 'M' ::
        ((Nat.repr sec).toList ++ '.' :: ((Nat.repr f).toList ++ ['S'])))) := by
    rw [dropLiteral_eq_some]
  rw [hd0]
  simp only
  rw [dropWhile_digits_append _ _ hall1 'H' (by decide),
    takeWhile_digits_append _ _ hall1 'H' (by decide)]
  simp only
  rw [dropWhile_digits_append _ _ hall2 'M' (by decide),
    takeWhile_digits_append _ _ hall2 'M' (by decide)]
  simp only
  rw [dropWhile_digits_append _ _ hall3 '.' (by decide),
    takeWhile_digits_append _ _ hall3 '.' (by decide)]
  simp only
  rw [dropWhile_digits_append _ _ hall4 'S' (by decide),
    takeWhile_digits_append _ _ hall4 'S' (by decide)]
  simp only [hne1, hne2, hne3, hne4, or_self, if_false, hval1, hval2, hval3, hval4]

theorem readIsoDuration_durationXml (d : Nat) (hms : d % 1000000 = 0) :
    (readIsoDuration (BuildTransmuxingManifestFromFile_durationXml (d : Int)).toList =
        some d ↔
      d % 1000000000 / 1000000 = 0 ∨ 100 ≤ d % 1000000000 / 1000000) := by
  rw [durationXml_transmuxing_nat, readIsoDuration_rendered]
  have hf : d % 1000000000 / 1000000 < 1000 := by omega
  obtain ⟨hlen1, hlen2, hlen3⟩ := repr_length_of_millis _ hf
  have hsum : d = d / 3600000000000 * 3600000000000 +
      d % 3600000000000 / 60000000000 * 60000000000 +
      d % 60000000000 / 1000000000 * 1000000000 + d % 1000000000 / 1000000 * 1000000 := by
    omega
  generalize d % 1000000000 / 1000000 = f at hf hlen1 hlen2 hlen3 hsum
  generalize d / 3600000000000 * 3600000000000 +
      d % 3600000000000 / 60000000000 * 60000000000 +
      d % 60000000000 / 1000000000 * 1000000000 = whole at hsum
  rw [Option.some_inj]
  by_cases h10 : f < 10
  · rw [hlen1 h10]
    have e : f * 1000000000 / 10 ^ 1 = f * 100000000 := by omega
    rw [e]
    omega
  · by_cases h100 : f < 100
    · rw [hlen2 (by omega) h100]
      have e : f * 1000000000 / 10 ^ 2 = f * 10000000 := by omega
      rw [e]
      omega
    · rw [hlen3 (by omega)]
      have e : f * 1000000000 / 10 ^ 3 = f * 1000000 := by omega
      rw [e]
      omega


/-- C12 (the code at the failing input): the total duration 3.056 s is
rendered by both builders as `PT0H0M3.56S`, which read back as an ISO-8601
duration is 3.560 s; 3.456 s is rendered as `PT0H0M3.456S` and read back as
3.456 s. -/
theorem C12_milliseconds_not_padded :
    BuildTransmuxingManifestFromFile_durationXml (3056 * Millisecond) = "PT0H0M3.56S" ∧
    BuildTranscodingManifestFromFile_durationXml (3056 * Millisecond) = "PT0H0M3.56S" ∧
    readIsoDuration "PT0H0M3.56S".toList = some 3560000000 ∧
    (3056 * Millisecond : Int) = 3056000000 ∧
    readIsoDuration
        (BuildTransmuxingManifestFromFile_durationXml (3056 * Millisecond)).toList ≠
      some 3056000000 ∧
    readIsoDuration
        (BuildTransmuxingManifestFromFile_durationXml (3456 * Millisecond)).toList =
      some 3456000000 := by
  decide

end Olaris
